import Mathlib

/-!
Verification of the FAT-style filesystem simulator.

The Python source is shallowly embedded:

* `bytes` values become `List Nat` (each element `< 256` by construction),
  `str` values become the list of their Unicode code points (`Str`).
* The memory-mapped image (`DiskManager`) is a list of 1024 blocks of
  64 bytes.
* The buffer manager, FAT manager, directory manager and the filesystem
  facade are state-passing functions; Python exceptions become the
  `Except PyErr` monad.
* `time.time()` / `datetime.now()` are modelled by strictly increasing
  natural-number counters (`clock`, `sys_time`); the spec only relies on
  monotonicity.  The 8-byte IEEE-double timestamp fields of an FCB are
  modelled as 64-bit little-endian encodings of those counters: the source
  only packs and unpacks them, never computes with their bit patterns.
* Every buffer access in the FAT manager, the directory manager and the
  facade passes an `owner=` keyword argument, but the buffer's signatures
  are `read_page(self, block_id, callback=None)` and
  `write_page(self, block_id, data)`: in Python each such call raises
  `TypeError` at argument binding, before the buffer is touched.  The
  embedding models those call sites with `read_page_owner` /
  `write_page_owner`, which raise `typeError` and change nothing.
  (`invalidate` and `flush_all` are called without the keyword and
  behave normally.)  A raised exception carries no state in the `Except`
  model; no enclosing handler in the source observes state mutated
  before such a crash, because the crash happens at the call itself.
-/

namespace OsFs

/-- Python `bytes`: a list of byte values. -/
abbrev Bytes := List Nat

/-- Python `str`: the list of Unicode code points. -/
abbrev Str := List Nat

/-- Python exceptions raised by the embedded code
(`RuntimeError` is the buffer pool's `PoolExhausted` condition;
`typeError` is the keyword-binding failure of the `owner=` calls). -/
inductive PyErr where
  | valueError
  | runtimeError
  | keyError
  | fileNotFound
  | notADirectory
  | typeError
deriving DecidableEq

/-! ## `config.py` — `SystemConfig` -/

namespace SystemConfig

def BLOCK_SIZE : Nat := 64
def TOTAL_BLOCKS : Nat := 1024
def BUFFER_CAPACITY : Nat := 8
def SUPER_BLOCK : Nat := 1
def FAT_BLOCKS : Nat := 64
def DIR_BLOCKS : Nat := 32
def FAT_START : Nat := SUPER_BLOCK
def DIR_START : Nat := FAT_START + FAT_BLOCKS
def DATA_START : Nat := DIR_START + DIR_BLOCKS
def MAX_FILENAME_LENGTH : Nat := 32
def MAX_FILE_SIZE : Nat := (TOTAL_BLOCKS - DATA_START) * BLOCK_SIZE
def FAT_FREE : Nat := 0xFFFFFFFF
def FAT_EOF : Nat := 0xFFFFFFFE
def FAT_BAD : Nat := 0xFFFFFFFD
def FAT_RESERVED : Nat := 0xFFFFFF00

end SystemConfig

/-! ## Byte-level helpers -/

/-- `n.to_bytes(k, 'little')`. -/
def natToBytesLE : Nat → Nat → Bytes
  | 0, _ => []
  | k + 1, n => n % 256 :: natToBytesLE k (n / 256)

/-- `int.from_bytes(l, 'little')`. -/
def bytesToNatLE : Bytes → Nat
  | [] => 0
  | b :: r => b + 256 * bytesToNatLE r

/-- `l[off : off+k]` on bytes. -/
def extract (l : Bytes) (off k : Nat) : Bytes := (l.drop off).take k

/-- Overwrite `seg.length` bytes of `l` starting at `off`
(Python slice assignment on a `bytearray`). -/
def splice (l : Bytes) (off : Nat) (seg : Bytes) : Bytes :=
  l.take off ++ seg ++ l.drop (off + seg.length)

/-- `b'\0' * n`. -/
def zeros (n : Nat) : Bytes := List.replicate n 0

/-- Right-pad with zeros or truncate to the 64-byte block size
(`data[:64]` / `data.ljust(64, b'\0')`); used verbatim by
`DiskManager.write_block` and `BufferManager.write_page`. -/
def norm64 (data : Bytes) : Bytes :=
  if 64 < data.length then data.take 64
  else data ++ zeros (64 - data.length)

/-! ## `disk/disk_manager.py` — `DiskManager`

The memory-mapped image: exactly 1024 blocks of 64 bytes. -/

structure DiskManager where
  blocks : Nat → Bytes

namespace DiskManager

def read_block (d : DiskManager) (block_index : Nat) : Except PyErr Bytes :=
  if block_index < SystemConfig.TOTAL_BLOCKS then
    .ok (d.blocks block_index)
  else
    .error .valueError

def write_block (d : DiskManager) (block_index : Nat) (data : Bytes) :
    Except PyErr DiskManager :=
  if block_index < SystemConfig.TOTAL_BLOCKS then
    .ok ⟨fun b => if b = block_index then norm64 data else d.blocks b⟩
  else
    .error .valueError

end DiskManager

/-! ## `buffer/buffer_manager.py` -/

/-- `BufferPage`; `last_access_time` is the logical clock value. -/
structure BufferPage where
  block_id : Nat
  data : Bytes
  is_dirty : Bool
  last_access_time : Nat
  owner : Str
  ref_count : Nat
deriving DecidableEq

/-- `BufferPage.owner`'s initial value `"system"`. -/
def ownerSystem : Str := [115, 121, 115, 116, 101, 109]

structure BufferStatistics where
  hit_count : Nat
  miss_count : Nat
  evict_count : Nat
  writeback_count : Nat
deriving DecidableEq

namespace BufferStatistics

def record_hit (st : BufferStatistics) : BufferStatistics :=
  { st with hit_count := st.hit_count + 1 }

def record_miss (st : BufferStatistics) : BufferStatistics :=
  { st with miss_count := st.miss_count + 1 }

def record_eviction (st : BufferStatistics) (was_dirty : Bool) : BufferStatistics :=
  { st with
    evict_count := st.evict_count + 1
    writeback_count := st.writeback_count + (if was_dirty then 1 else 0) }

end BufferStatistics

/-- `BufferManager`.  `buffer_pool` is the Python dict in insertion order
(keys are the `block_id`s, which stay pairwise distinct); `clock` is the
monotonic source of `time.time()` stamps. -/
structure BufferManager where
  disk : DiskManager
  capacity : Nat
  buffer_pool : List BufferPage
  stats : BufferStatistics
  clock : Nat

/-- `block_id in self.buffer_pool` / `self.buffer_pool[block_id]`. -/
def poolFind (pool : List BufferPage) (b : Nat) : Option BufferPage :=
  pool.find? (fun p => p.block_id == b)

namespace BufferManager

/-- `page.touch()` on the page keyed `b` (in-place update of the dict). -/
def touchPool (pool : List BufferPage) (b clock : Nat) : List BufferPage :=
  pool.map (fun p => if p.block_id == b then { p with last_access_time := clock } else p)

/-- First page with minimal `last_access_time` (Python `min` keeps the
first minimum in dict iteration order). -/
def argminTime (l : List BufferPage) : Option BufferPage :=
  l.foldl
    (fun acc p =>
      match acc with
      | none => some p
      | some q => if p.last_access_time < q.last_access_time then some p else some q)
    none

/-- `BufferManager._evict_lru`. -/
def _evict_lru (s : BufferManager) : Except PyErr BufferManager :=
  let candidates := s.buffer_pool.filter (fun p => p.ref_count == 0)
  match argminTime candidates with
  | none => .error .runtimeError
  | some victim => do
    let disk' ←
      if victim.is_dirty then s.disk.write_block victim.block_id victim.data
      else pure s.disk
    .ok { s with
          disk := disk'
          stats := s.stats.record_eviction victim.is_dirty
          buffer_pool := s.buffer_pool.filter (fun p => ¬(p.block_id == victim.block_id)) }

/-- The tail of the miss path: read the device and install a clean page
stamped with the current clock. -/
def installPage (s : BufferManager) (block_id : Nat) :
    Except PyErr (Bytes × BufferManager) := do
  let data ← s.disk.read_block block_id
  let page : BufferPage :=
    { block_id := block_id, data := data, is_dirty := false
      last_access_time := s.clock, owner := ownerSystem, ref_count := 0 }
  .ok (data, { s with buffer_pool := s.buffer_pool ++ [page], clock := s.clock + 1 })

/-- The miss path of `read_page` (lines 217–235 of the source): evict if
the pool is full, read the device, install a clean page. -/
def read_page_miss (s : BufferManager) (block_id : Nat) :
    Except PyErr (Bytes × BufferManager) := do
  let s ← if s.capacity ≤ s.buffer_pool.length then s._evict_lru else pure s
  installPage s block_id

/-- `BufferManager.read_page` (the `callback` argument is `None` in
every reachable call). -/
def read_page (s : BufferManager) (block_id : Nat) : Except PyErr (Bytes × BufferManager) :=
  match poolFind s.buffer_pool block_id with
  | some page =>
      .ok (page.data,
        { s with
          buffer_pool := touchPool s.buffer_pool block_id s.clock
          clock := s.clock + 1
          stats := s.stats.record_hit })
  | none => read_page_miss { s with stats := s.stats.record_miss } block_id

/-- `BufferManager.write_page`: ensure residency (write-allocate via
`read_page`), then overwrite the page, mark it dirty and touch it.  The
lookup `self.buffer_pool[block_id]` raising `KeyError` is unreachable. -/
def write_page (s0 : BufferManager) (block_id : Nat) (data : Bytes) :
    Except PyErr BufferManager :=
  (match poolFind s0.buffer_pool block_id with
    | some _ => pure s0
    | none => do
        let r ← read_page s0 block_id
        pure r.2) >>= fun s =>
  match poolFind s.buffer_pool block_id with
  | none => .error .keyError
  | some _ =>
      let d := norm64 data
      .ok { s with
            buffer_pool := s.buffer_pool.map (fun p =>
              if p.block_id == block_id then
                { p with data := d, is_dirty := true, last_access_time := s.clock }
              else p)
            clock := s.clock + 1 }

/-- A call `read_page(block_id, owner=…)`: `read_page`'s parameters are
`(self, block_id, callback=None)`, so keyword binding fails and the call
raises `TypeError` before the buffer is touched. -/
def read_page_owner (_s : BufferManager) (_block_id : Nat) :
    Except PyErr (Bytes × BufferManager) :=
  .error .typeError

/-- A call `write_page(block_id, data, owner=…)`: `write_page`'s
parameters are `(self, block_id, data)`, so keyword binding fails and the
call raises `TypeError` before the buffer is touched. -/
def write_page_owner (_s : BufferManager) (_block_id : Nat) (_data : Bytes) :
    Except PyErr BufferManager :=
  .error .typeError

/-- The flushing loop of `flush_all`: write every dirty page through,
clearing its dirty flag, in pool order. -/
def flushPages (disk : DiskManager) : List BufferPage → Except PyErr (DiskManager × List BufferPage)
  | [] => .ok (disk, [])
  | p :: rest =>
    if p.is_dirty then do
      let disk' ← disk.write_block p.block_id p.data
      let r ← flushPages disk' rest
      .ok (r.1, { p with is_dirty := false } :: r.2)
    else do
      let r ← flushPages disk rest
      .ok (r.1, p :: r.2)

/-- `BufferManager.flush_all`. -/
def flush_all (s : BufferManager) : Except PyErr BufferManager := do
  let r ← flushPages s.disk s.buffer_pool
  .ok { s with disk := r.1, buffer_pool := r.2 }

/-- `BufferManager.invalidate`. -/
def invalidate (s : BufferManager) (block_id : Nat) : Except PyErr BufferManager :=
  match poolFind s.buffer_pool block_id with
  | none => .ok s
  | some page => do
      let disk' ←
        if page.is_dirty then s.disk.write_block page.block_id page.data
        else pure s.disk
      .ok { s with
            disk := disk'
            buffer_pool := s.buffer_pool.filter (fun p => ¬(p.block_id == block_id)) }

/-- `BufferManager.clear`. -/
def clear (s : BufferManager) : Except PyErr BufferManager := do
  let s' ← flush_all s
  .ok { s' with buffer_pool := [] }

/-- The current byte content of block `b` as observed through the cache:
the resident page if any, the device otherwise. -/
def view (s : BufferManager) (b : Nat) : Bytes :=
  match poolFind s.buffer_pool b with
  | some p => p.data
  | none => s.disk.blocks b

end BufferManager

/-! ## Python string primitives used by the source -/

/-- UTF-8 encoding of one code point (`str.encode('utf-8')`). -/
def utf8EncodeChar (c : Nat) : Bytes :=
  if c < 0x80 then [c]
  else if c < 0x800 then [0xC0 + c / 64, 0x80 + c % 64]
  else if c < 0x10000 then [0xE0 + c / 4096, 0x80 + (c / 64) % 64, 0x80 + c % 64]
  else [0xF0 + c / 262144, 0x80 + (c / 4096) % 64, 0x80 + (c / 64) % 64, 0x80 + c % 64]

def utf8Encode (s : Str) : Bytes := (s.map utf8EncodeChar).flatten

/-- A UTF-8 continuation byte. -/
def isCont (b : Nat) : Bool := 0x80 ≤ b && b < 0xC0

/-- One decoding step after a lead byte `b`: the decoded code point (or
`none` for an ill-formed prefix, which `errors='ignore'` drops) and the
bytes decoding resumes from. -/
def utf8Step (b : Nat) (rest : Bytes) : Option Nat × Bytes :=
  if b < 0x80 then (some b, rest)
  else if 0xC2 ≤ b && b ≤ 0xDF then
    match rest with
    | [] => (none, [])
    | c1 :: rest1 =>
      if isCont c1 then (some ((b - 0xC0) * 64 + (c1 - 0x80)), rest1) else (none, rest)
  else if 0xE0 ≤ b && b ≤ 0xEF then
    match rest with
    | [] => (none, [])
    | c1 :: rest1 =>
      if (isCont c1 && !(b == 0xE0 && decide (c1 < 0xA0)) && !(b == 0xED && decide (0xA0 ≤ c1))) then
        match rest1 with
        | [] => (none, [])
        | c2 :: rest2 =>
          if isCont c2 then
            (some ((b - 0xE0) * 4096 + (c1 - 0x80) * 64 + (c2 - 0x80)), rest2)
          else (none, rest1)
      else (none, rest)
  else if 0xF0 ≤ b && b ≤ 0xF4 then
    match rest with
    | [] => (none, [])
    | c1 :: rest1 =>
      if (isCont c1 && !(b == 0xF0 && decide (c1 < 0x90)) && !(b == 0xF4 && decide (0x90 ≤ c1))) then
        match rest1 with
        | [] => (none, [])
        | c2 :: rest2 =>
          if isCont c2 then
            match rest2 with
            | [] => (none, [])
            | c3 :: rest3 =>
              if isCont c3 then
                (some ((b - 0xF0) * 262144 + (c1 - 0x80) * 4096 + (c2 - 0x80) * 64 + (c3 - 0x80)),
                 rest3)
              else (none, rest2)
          else (none, rest1)
      else (none, rest)
  else (none, rest)

/-- The decoding loop; `utf8Step` consumes at least one byte per round,
so fuel initialised to the byte count never runs out. -/
def utf8DecodeLoop : Nat → Bytes → Str
  | _, [] => []
  | 0, _ :: _ => []
  | fuel + 1, b :: rest =>
    match utf8Step b rest with
    | (some c, rem) => c :: utf8DecodeLoop fuel rem
    | (none, rem) => utf8DecodeLoop fuel rem

/-- `bytes.decode('utf-8', errors='ignore')`: invalid prefixes are dropped
and decoding resumes.  Every name in the theorems below is ASCII, where
any conforming decoder agrees. -/
def utf8DecodeIgnore (l : Bytes) : Str := utf8DecodeLoop l.length l

/-- Unicode whitespace as recognised by `str.strip()` (the code points
relevant to byte-decoded names). -/
def isPySpace (c : Nat) : Bool :=
  c == 32 || (9 ≤ c && c ≤ 13) || (28 ≤ c && c ≤ 31) || c == 133 || c == 160 ||
  c == 0x1680 || (0x2000 ≤ c && c ≤ 0x200A) || c == 0x2028 || c == 0x2029 ||
  c == 0x202F || c == 0x205F || c == 0x3000

/-- `str.strip()`. -/
def pyStrip (s : Str) : Str :=
  ((s.dropWhile isPySpace).reverse.dropWhile isPySpace).reverse

/-- `str.upper()` (ASCII case mapping; no name in scope is non-ASCII). -/
def pyUpper (s : Str) : Str :=
  s.map (fun c => if 97 ≤ c ∧ c ≤ 122 then c - 32 else c)

/-- Two's-complement reading of a 32-bit value (`struct.unpack('<i', …)`). -/
def toSigned32 (n : Nat) : Int :=
  if n < 2 ^ 31 then (n : Int) else (n : Int) - 2 ^ 32

/-! ## `utils/validators.py` — `Validator` -/

namespace Validator

/-- One character of the rejected class `[<>:"|?*\\/\x00-\x1f]`. -/
def invalidChar (c : Nat) : Bool :=
  c == 60 || c == 62 || c == 58 || c == 34 || c == 124 || c == 63 || c == 42 ||
  c == 92 || c == 47 || c < 32

/-- `['CON', 'PRN', 'AUX', 'NUL', '.', '..']` as code-point lists. -/
def reservedNames : List Str :=
  [[67, 79, 78], [80, 82, 78], [65, 85, 88], [78, 85, 76], [46], [46, 46]]

/-- `Validator.validate_name`; the embedding keeps the boolean verdict and
drops the explanatory message component of the returned pair. -/
def validate_name (name : Str) : Bool :=
  if name = [] then false
  else if SystemConfig.MAX_FILENAME_LENGTH < name.length then false
  else if name.any invalidChar then false
  else if pyUpper name ∈ reservedNames then false
  else true

end Validator

/-! ## `disk/fcb.py` — `FCB`

The two 8-byte IEEE-double timestamp fields only ever carry
`datetime` values between `pack` and `unpack`; they are modelled as
64-bit little-endian encodings of the logical clock. -/

structure FCB where
  name : Str
  size : Nat
  start_block : Int
  create_time : Nat
  modify_time : Nat
  is_directory : Bool
deriving DecidableEq

namespace FCB

/-- `struct.pack('<i', start_block)`. -/
def intToBytesLE4 (i : Int) : Bytes := natToBytesLE 4 (i.emod (2 ^ 32)).toNat

/-- `name.encode('utf-8')[:32].ljust(32, b'\0')`. -/
def nameField (name : Str) : Bytes :=
  let nb := (utf8Encode name).take 32
  nb ++ zeros (32 - nb.length)

/-- `FCB.to_bytes` (`struct.pack('<I', size)` raises for `size ≥ 2^32`,
which no reachable size attains; the embedding truncates). -/
def to_bytes (f : FCB) : Bytes :=
  nameField f.name ++ natToBytesLE 4 f.size ++ intToBytesLE4 f.start_block ++
  natToBytesLE 8 f.create_time ++ natToBytesLE 8 f.modify_time ++
  [if f.is_directory then 1 else 0] ++ zeros 7

/-- `FCB.from_bytes` (none of the decoding steps can raise in the
embedding, so the source's catch-all `except: return None` is inert). -/
def from_bytes (data : Bytes) : Option FCB :=
  if data.length < 64 then none
  else if data.all (· == 0) then none
  else
    let name_raw := (extract data 0 32).takeWhile (· ≠ 0)
    let name := pyStrip (utf8DecodeIgnore name_raw)
    if name = [] then none
    else
      some
        { name := name
          size := bytesToNatLE (extract data 32 4)
          start_block := toSigned32 (bytesToNatLE (extract data 36 4))
          create_time := bytesToNatLE (extract data 40 8)
          modify_time := bytesToNatLE (extract data 48 8)
          is_directory := bytesToNatLE (extract data 56 1) != 0 }

end FCB

/-! ## `disk/super_block.py` — on-image superblock bytes -/

/-- `SuperBlock().to_bytes()`: `struct.pack('<5sB H I I B I B I', …)`
right-padded to 64 bytes (`"FATFS"`, version 1, layout constants). -/
def superBlockBytes : Bytes :=
  [70, 65, 84, 70, 83] ++ [1] ++ natToBytesLE 2 SystemConfig.BLOCK_SIZE ++
  natToBytesLE 4 SystemConfig.TOTAL_BLOCKS ++ natToBytesLE 4 SystemConfig.FAT_START ++
  [SystemConfig.FAT_BLOCKS] ++ natToBytesLE 4 SystemConfig.DIR_START ++
  [SystemConfig.DIR_BLOCKS] ++ natToBytesLE 4 SystemConfig.DATA_START ++ zeros 38

/-! ## The composite filesystem state

`FileSystem` in `disk/filesystem.py` owns the disk (inside the buffer),
the FAT manager's free-block cache, the advisory lock set, and — for the
embedding — the `datetime.now()` counter. -/

structure FileSystem where
  buffer : BufferManager
  free_cache : Option (List Nat)
  opened_files : List Str
  sys_time : Nat

/-! ## `disk/fat_manager.py` — `FATManager` -/

namespace FATManager

def entries_per_block : Nat := SystemConfig.BLOCK_SIZE / 4

def total_entries : Nat := entries_per_block * SystemConfig.FAT_BLOCKS

/-- `FATManager._read_entry` (negative indices cannot arise: every call
site filters them first).  The buffer read passes `owner="FAT"`, so it
raises `TypeError` (see `read_page_owner`). -/
def _read_entry (s : FileSystem) (entry_index : Nat) : Except PyErr (Nat × FileSystem) :=
  if entry_index < total_entries then do
    let r ← s.buffer.read_page_owner (SystemConfig.FAT_START + entry_index / entries_per_block)
    .ok (bytesToNatLE (extract r.1 ((entry_index % entries_per_block) * 4) 4),
         { s with buffer := r.2 })
  else .error .valueError

/-- `FATManager._write_entry`: read-modify-write of the cached FAT block,
then `_free_cache = None`.  Both buffer calls pass `owner="FAT"`, so the
read already raises `TypeError` and the lines after it (including
`self._free_cache = None`) never run. -/
def _write_entry (s : FileSystem) (entry_index : Nat) (value : Nat) : Except PyErr FileSystem :=
  if entry_index < total_entries then do
    let r ← s.buffer.read_page_owner (SystemConfig.FAT_START + entry_index / entries_per_block)
    let buf ← r.2.write_page_owner (SystemConfig.FAT_START + entry_index / entries_per_block)
      (splice r.1 ((entry_index % entries_per_block) * 4) (natToBytesLE 4 value))
    .ok { s with buffer := buf, free_cache := none }
  else .error .valueError

/-- The scanning loop of `_rebuild_free_cache`, over an explicit index
list (ascending). -/
def scanFree : FileSystem → List Nat → Except PyErr (List Nat × FileSystem)
  | s, [] => .ok ([], s)
  | s, i :: rest => do
    let r ← _read_entry s i
    let t ← scanFree r.2 rest
    .ok ((if r.1 = SystemConfig.FAT_FREE then [i] else []) ++ t.1, t.2)

/-- `FATManager._rebuild_free_cache` (`max_block = min(total_entries,
TOTAL_BLOCKS)` inlined). -/
def _rebuild_free_cache (s : FileSystem) : Except PyErr FileSystem := do
  let r ← scanFree s (List.range' SystemConfig.DATA_START
    (min total_entries SystemConfig.TOTAL_BLOCKS - SystemConfig.DATA_START))
  .ok { r.2 with free_cache := some r.1 }

/-- The tail of `allocate_block`, from the point where `_free_cache` is
known to be populated: pop the head and mark it `EOF`.  In the source the
`pop(0)` mutates the cache before `_write_entry` raises `TypeError`; the
raised exception leaves no state in the `Except` model, and no handler in
the source catches it on any path through `allocate_block`, so the popped
cache is unobservable. -/
def allocFromCache (s : FileSystem) : Except PyErr (Int × FileSystem) :=
  match s.free_cache with
  | none => .ok (-1, s)
  | some [] => .ok (-1, s)
  | some (block_id :: rest) => do
    let s ← _write_entry { s with free_cache := some rest } block_id SystemConfig.FAT_EOF
    .ok ((block_id : Int), s)

/-- `FATManager.allocate_block`. -/
def allocate_block (s : FileSystem) : Except PyErr (Int × FileSystem) := do
  let s ←
    match s.free_cache with
    | none => _rebuild_free_cache s
    | some _ => pure s
  allocFromCache s

/-- `FATManager.free_block`. -/
def free_block (s : FileSystem) (block_index : Int) : Except PyErr FileSystem :=
  if block_index = -1 then .ok s
  else if block_index < 2 ∨ (total_entries : Int) ≤ block_index then .ok s
  else _write_entry s block_index.toNat SystemConfig.FAT_FREE

def max_hops : Nat := SystemConfig.TOTAL_BLOCKS * 2

/-- The chain walk of `get_file_blocks`.  The recursion is bounded by the
source's own `hops > max_hops` defence; the structural `fuel` argument is
kept equal to `max_hops + 1 - hops` by the wrapper below, so the `0` case
(which repeats the loop's stop-with-current-prefix behaviour) is never
reached: the `max_hops < hops` guard fires first. -/
def gfbGo : Nat → FileSystem → Nat → List Nat → List Nat → Nat →
    Except PyErr (List Nat × FileSystem)
  | 0, s, _, _, blocks, _ => .ok (blocks, s)
  | fuel + 1, s, current, visited, blocks, hops =>
    if current = SystemConfig.FAT_FREE ∨ current = SystemConfig.FAT_EOF then .ok (blocks, s)
    else if total_entries ≤ current then .ok (blocks, s)
    else if current ∈ visited then .ok (blocks, s)
    else
      let blocks := blocks ++ [current]
      let visited := current :: visited
      if total_entries < blocks.length ∨ max_hops < hops then .ok (blocks, s)
      else do
        let r ← _read_entry s current
        if SystemConfig.FAT_EOF ≤ r.1 then .ok (blocks, r.2)
        else gfbGo fuel r.2 r.1 visited blocks (hops + 1)

/-- The chain walk entered at hop count `hops`. -/
def gfbLoop (s : FileSystem) (current : Nat) (visited blocks : List Nat) (hops : Nat) :
    Except PyErr (List Nat × FileSystem) :=
  gfbGo (max_hops + 1 - hops) s current visited blocks hops

/-- `FATManager.get_file_blocks`. -/
def get_file_blocks (s : FileSystem) (start_block : Int) : Except PyErr (List Nat × FileSystem) :=
  if start_block = -1 then .ok ([], s)
  else if start_block < 0 ∨ (total_entries : Int) ≤ start_block then .error .valueError
  else gfbLoop s start_block.toNat [] [] 0

/-- `FATManager.get_free_blocks`. -/
def get_free_blocks (s : FileSystem) : Except PyErr (List Nat × FileSystem) := do
  let s ←
    match s.free_cache with
    | none => _rebuild_free_cache s
    | some _ => pure s
  .ok (s.free_cache.getD [], s)

/-- One guarded reserving loop of `mark_system_blocks`. -/
def markLoop (v : Nat) : FileSystem → List Nat → Except PyErr FileSystem
  | s, [] => .ok s
  | s, i :: rest => do
    let s ← if i < total_entries then _write_entry s i v else pure s
    markLoop v s rest

/-- `FATManager.mark_system_blocks`. -/
def mark_system_blocks (s : FileSystem) : Except PyErr FileSystem := do
  let s ← markLoop (SystemConfig.FAT_RESERVED + 1) s
    (List.range' SystemConfig.FAT_START SystemConfig.FAT_BLOCKS)
  let s ← markLoop (SystemConfig.FAT_RESERVED + 2) s
    (List.range' SystemConfig.DIR_START (SystemConfig.DATA_START - SystemConfig.DIR_START))
  let s ← if 0 < total_entries then _write_entry s 0 (SystemConfig.FAT_RESERVED + 3) else pure s
  let buf ← s.buffer.flush_all
  .ok { s with buffer := buf }

/-- The `_initialize_fat` image values: the first two entries reserved,
the rest free. -/
def fatInitEntry (i : Nat) : Nat :=
  if i < 2 then SystemConfig.FAT_RESERVED else SystemConfig.FAT_FREE

/-- The byte buffer `fat_buffer` built by `_initialize_fat` (all 1024
entries are covered by the two initialisation loops). -/
def fatInitBuffer : Bytes :=
  ((List.range total_entries).map (fun i => natToBytesLE 4 (fatInitEntry i))).flatten

/-- The direct-to-disk write loop of `_initialize_fat`. -/
def initFATWrite (d : DiskManager) : Nat → Except PyErr DiskManager
  | 0 => .ok d
  | n + 1 => do
    let d ← initFATWrite d n
    let i := n
    d.write_block (SystemConfig.FAT_START + i)
      (extract fatInitBuffer (i * SystemConfig.BLOCK_SIZE) SystemConfig.BLOCK_SIZE)

/-- `FATManager._initialize_fat` (named `initFAT` here): the whole body
sits in a `try`/`except Exception` that only logs.  The probe
`_read_entry(0)` raises `TypeError` at its `owner=` buffer call, so the
handler swallows the exception and the FAT region is left exactly as the
device had it: `_initialize_fat` returns normally with no state change. -/
def initFAT (s : FileSystem) : Except PyErr FileSystem :=
  match (do
    let r ← _read_entry s 0
    if r.1 = SystemConfig.FAT_RESERVED then (.ok r.2 : Except PyErr FileSystem)
    else do
      let d ← initFATWrite r.2.buffer.disk SystemConfig.FAT_BLOCKS
      .ok { r.2 with buffer := { r.2.buffer with disk := d } }) with
  | .error _ => .ok s
  | .ok t => .ok t

end FATManager

/-! ## `disk/directory_manager.py` — `DirectoryManager` -/

namespace DirectoryManager

/-- `BLOCK_SIZE // 64 = 1`: one FCB slot per directory block. -/
def entries_per_block : Nat := SystemConfig.BLOCK_SIZE / 64

/-- `DirectoryManager._get_dir_blocks`: the root's fixed region, or the
subdirectory's FAT chain. -/
def _get_dir_blocks (s : FileSystem) (dir_fcb : Option FCB) :
    Except PyErr (List Nat × FileSystem) :=
  match dir_fcb with
  | none => .ok (List.range' SystemConfig.DIR_START SystemConfig.DIR_BLOCKS, s)
  | some f =>
    if f.start_block = -1 then .ok ([], s)
    else FATManager.get_file_blocks s f.start_block

/-- The per-block slot scan of `_read_dir_entries`. -/
def blockEntries (data : Bytes) : List FCB :=
  (List.range entries_per_block).filterMap (fun i => FCB.from_bytes (extract data (i * 64) 64))

/-- The block loop of `_read_dir_entries`; its read passes `owner="DIR"`
and raises `TypeError` (see `read_page_owner`). -/
def readEntriesLoop : FileSystem → List Nat → Except PyErr (List FCB × FileSystem)
  | s, [] => .ok ([], s)
  | s, blk :: rest => do
    let r ← s.buffer.read_page_owner blk
    let t ← readEntriesLoop { s with buffer := r.2 } rest
    .ok (blockEntries r.1 ++ t.1, t.2)

/-- `DirectoryManager._read_dir_entries`. -/
def _read_dir_entries (s : FileSystem) (dir_fcb : Option FCB) :
    Except PyErr (List FCB × FileSystem) := do
  let r ← _get_dir_blocks s dir_fcb
  readEntriesLoop r.2 r.1

/-- `DirectoryManager._find_in_dir`: first entry with the given name. -/
def _find_in_dir (s : FileSystem) (dir_fcb : Option FCB) (name : Str) :
    Except PyErr (Option FCB × FileSystem) := do
  let r ← _read_dir_entries s dir_fcb
  .ok (r.1.find? (fun e => e.name == name), r.2)

/-- `path.split('/')` (code point 47), empties included. -/
def splitOnSlash (s : Str) : List Str :=
  s.foldr
    (fun c acc =>
      if c = 47 then [] :: acc
      else
        match acc with
        | [] => [[c]]
        | h :: t => (c :: h) :: t)
    [[]]

/-- `[p for p in path.split('/') if p]`. -/
def splitPath (path : Str) : List Str := (splitOnSlash path).filter (· ≠ [])

/-- The intermediate-component walk of `resolve_path`; returns the FCB of
the directory the last component is to be looked up in. -/
def resolveLoop : FileSystem → Option FCB → List Str → Except PyErr (Option FCB × FileSystem)
  | s, cur, [] => .ok (cur, s)
  | s, cur, part :: rest => do
    let r ← _find_in_dir s cur part
    match r.1 with
    | none => .error .fileNotFound
    | some found =>
      if found.is_directory then resolveLoop r.2 (some found) rest
      else .error .notADirectory

/-- `DirectoryManager.resolve_path`. -/
def resolve_path (s : FileSystem) (path : Str) :
    Except PyErr ((Option FCB × Option FCB) × FileSystem) :=
  if path = [] ∨ path = [47] then .ok ((none, none), s)
  else
    let parts := splitPath path
    match parts.getLast? with
    | none => .ok ((none, none), s)
    | some target_name => do
      let r ← resolveLoop s none parts.dropLast
      let t ← _find_in_dir r.2 r.1 target_name
      .ok ((r.1, t.1), t.2)

/-- `DirectoryManager.list_directory`. -/
def list_directory (s : FileSystem) (path : Str) : Except PyErr (List FCB × FileSystem) :=
  if path = [47] ∨ path = [] then _read_dir_entries s none
  else do
    let r ← resolve_path s path
    match r.1.2 with
    | some target =>
      if target.is_directory then _read_dir_entries r.2 (some target)
      else .error .notADirectory
    | none =>
      if r.1.1 = none ∧ splitPath path ≠ [] then .error .fileNotFound
      else _read_dir_entries r.2 r.1.1

/-- The empty-slot scan of `_write_fcb_to_dir` over the existing blocks;
both buffer calls pass `owner="DIR"` and raise `TypeError`. -/
def writeSlotLoop : FileSystem → List Nat → Bytes → Except PyErr (Bool × FileSystem)
  | s, [], _ => .ok (false, s)
  | s, blk :: rest, fcb_bytes => do
    let r ← s.buffer.read_page_owner blk
    match (List.range entries_per_block).find?
        (fun i => (extract r.1 (i * 64) 64).all (· == 0)) with
    | some i => do
      let buf ← r.2.write_page_owner blk (splice r.1 (i * 64) fcb_bytes)
      .ok (true, { s with buffer := buf })
    | none => writeSlotLoop { s with buffer := r.2 } rest fcb_bytes

/-- `DirectoryManager._write_fcb_to_dir`. -/
def _write_fcb_to_dir (s : FileSystem) (dir_fcb : Option FCB) (new_fcb : FCB) :
    Except PyErr (Bool × FileSystem) := do
  let r ← _get_dir_blocks s dir_fcb
  let blocks := r.1
  let w ← writeSlotLoop r.2 blocks new_fcb.to_bytes
  if w.1 then .ok (true, w.2)
  else
    match dir_fcb with
    | none => .ok (false, w.2)
    | some _ => do
      let a ← FATManager.allocate_block w.2
      if a.1 = -1 then .ok (false, a.2)
      else do
        let s ←
          match blocks.getLast? with
          | some last_block => FATManager._write_entry a.2 last_block a.1.toNat
          | none => pure a.2
        let data := splice (zeros SystemConfig.BLOCK_SIZE) 0 new_fcb.to_bytes
        let buf ← s.buffer.write_page_owner a.1.toNat data
        .ok (true, { s with buffer := buf })

/-- `DirectoryManager.add_entry`. -/
def add_entry (s : FileSystem) (parent_path : Str) (fcb : FCB) :
    Except PyErr (Bool × FileSystem) :=
  if parent_path = [47] ∨ parent_path = [] then _write_fcb_to_dir s none fcb
  else do
    let r ← resolve_path s parent_path
    match r.1.2 with
    | some p =>
      if ¬p.is_directory then .error .notADirectory
      else _write_fcb_to_dir r.2 (some p) fcb
    | none =>
      if splitPath parent_path ≠ [] then .error .fileNotFound
      else _write_fcb_to_dir r.2 none fcb

/-- The slot scan of `update_entry`: first non-empty slot whose decoded
name matches. -/
def slotMatches (data : Bytes) (name : Str) (i : Nat) : Bool :=
  let entry := extract data (i * 64) 64
  (!(entry.all (· == 0))) &&
    (match FCB.from_bytes entry with
     | some curr => curr.name == name
     | none => false)

/-- The block loop of `update_entry`. -/
def updateLoop : FileSystem → List Nat → FCB → Except PyErr (Bool × FileSystem)
  | s, [], _ => .ok (false, s)
  | s, blk :: rest, fcb => do
    let r ← s.buffer.read_page_owner blk
    match (List.range entries_per_block).find? (slotMatches r.1 fcb.name) with
    | some i => do
      let buf ← r.2.write_page_owner blk (splice r.1 (i * 64) fcb.to_bytes)
      .ok (true, { s with buffer := buf })
    | none => updateLoop { s with buffer := r.2 } rest fcb

/-- `DirectoryManager.update_entry`. -/
def update_entry (s : FileSystem) (parent_dir_fcb : Option FCB) (fcb : FCB) :
    Except PyErr (Bool × FileSystem) := do
  let r ← _get_dir_blocks s parent_dir_fcb
  updateLoop r.2 r.1 fcb

/-- The block loop of `_delete_fcb_from_dir`: zero the first slot whose
decoded name matches. -/
def deleteLoop : FileSystem → List Nat → Str → Except PyErr (Bool × FileSystem)
  | s, [], _ => .ok (false, s)
  | s, blk :: rest, name => do
    let r ← s.buffer.read_page_owner blk
    match (List.range entries_per_block).find? (slotMatches r.1 name) with
    | some i => do
      let buf ← r.2.write_page_owner blk (splice r.1 (i * 64) (zeros 64))
      .ok (true, { s with buffer := buf })
    | none => deleteLoop { s with buffer := r.2 } rest name

/-- `DirectoryManager._delete_fcb_from_dir`. -/
def _delete_fcb_from_dir (s : FileSystem) (dir_fcb : Option FCB) (name : Str) :
    Except PyErr (Bool × FileSystem) := do
  let r ← _get_dir_blocks s dir_fcb
  deleteLoop r.2 r.1 name

/-- `DirectoryManager.remove_entry`. -/
def remove_entry (s : FileSystem) (path : Str) : Except PyErr (Bool × FileSystem) := do
  let r ← resolve_path s path
  match r.1.2 with
  | none => .ok (false, r.2)
  | some target => do
    let check ←
      if target.is_directory then do
        let ch ← _read_dir_entries r.2 (some target)
        pure (ch.1.isEmpty, ch.2)
      else pure (true, r.2)
    if check.1 then _delete_fcb_from_dir check.2 r.1.1 target.name
    else .ok (false, check.2)

end DirectoryManager

/-! ## `disk/filesystem.py` — the `FileSystem` facade -/

namespace FileSystem

/-- `path.strip('/')`. -/
def stripSlashes (s : Str) : Str :=
  ((s.dropWhile (· == 47)).reverse.dropWhile (· == 47)).reverse

/-- `FileSystem._get_parent_and_name`. -/
def _get_parent_and_name (full_path : Str) : Str × Str :=
  let fp := stripSlashes full_path
  if 47 ∈ fp then
    let revName := fp.reverse.takeWhile (· ≠ 47)
    (fp.take (fp.length - revName.length - 1), revName.reverse)
  else ([47], fp)

/-- `FCB.__init__`: raises `ValueError` for names longer than 32
characters; both timestamps are drawn from the `datetime.now()` counter. -/
def newFCB (s : FileSystem) (name : Str) (size : Nat) (start_block : Int)
    (is_dir : Bool) : Except PyErr (FCB × FileSystem) :=
  if 32 < name.length then .error .valueError
  else
    .ok ({ name := name, size := size, start_block := start_block,
           create_time := s.sys_time, modify_time := s.sys_time,
           is_directory := is_dir },
         { s with sys_time := s.sys_time + 1 })

/-- `FileSystem.create_directory` (the zero-initialisation of the new
directory block bypasses the buffer: `self.disk.write_block`). -/
def create_directory (s : FileSystem) (path : Str) : Except PyErr (Bool × FileSystem) := do
  let pn := _get_parent_and_name path
  let r ← DirectoryManager.resolve_path s path
  match r.1.2 with
  | some _ => .ok (false, r.2)
  | none => do
    let a ← FATManager.allocate_block r.2
    if a.1 = -1 then .ok (false, a.2)
    else do
      let d ← a.2.buffer.disk.write_block a.1.toNat (zeros SystemConfig.BLOCK_SIZE)
      let s := { a.2 with buffer := { a.2.buffer with disk := d } }
      let f ← newFCB s pn.2 0 a.1 true
      DirectoryManager.add_entry f.2 pn.1 f.1

/-- The allocate-and-write loop of `create_file` (lines 67–79): writes
64-byte chunks, linking freshly allocated blocks; breaks out, leaving a
short chain, when allocation fails.  The chunk write passes
`owner=filename` and raises `TypeError`.  The structural `fuel` is kept at or
above `rem.length` by the wrapper, so the `0` case (where `rem` is then
empty) coincides with the loop's own exit. -/
def createGo : Nat → FileSystem → Nat → Bytes → Except PyErr FileSystem
  | 0, s, _, _ => .ok s
  | fuel + 1, s, curr, rem =>
    if rem.length = 0 then .ok s
    else do
      let buf ← s.buffer.write_page_owner curr (rem.take 64)
      let s := { s with buffer := buf }
      let rem2 := rem.drop 64
      if 0 < rem2.length then do
        let a ← FATManager.allocate_block s
        if a.1 = -1 then .ok a.2
        else do
          let s ← FATManager._write_entry a.2 curr a.1.toNat
          createGo fuel s a.1.toNat rem2
      else
        FATManager._write_entry s curr SystemConfig.FAT_EOF

/-- The loop entered on the full content. -/
def createLoop (s : FileSystem) (curr : Nat) (rem : Bytes) : Except PyErr FileSystem :=
  createGo rem.length s curr rem

/-- `FileSystem.create_file`. -/
def create_file (s : FileSystem) (path : Str) (content : Bytes) :
    Except PyErr (Bool × FileSystem) := do
  let pn := _get_parent_and_name path
  let r ← DirectoryManager.resolve_path s path
  match r.1.2 with
  | some _ => .ok (false, r.2)
  | none =>
    if 0 < content.length then do
      let a ← FATManager.allocate_block r.2
      if a.1 = -1 then .ok (false, a.2)
      else do
        let s ← createLoop a.2 a.1.toNat content
        let f ← newFCB s pn.2 content.length a.1 false
        DirectoryManager.add_entry f.2 pn.1 f.1
    else do
      let f ← newFCB r.2 pn.2 content.length (-1) false
      DirectoryManager.add_entry f.2 pn.1 f.1

/-- The page-concatenation loop of `read_file`. -/
def readLoop : FileSystem → List Nat → Except PyErr (Bytes × FileSystem)
  | s, [] => .ok ([], s)
  | s, b :: rest => do
    let r ← s.buffer.read_page_owner b
    let t ← readLoop { s with buffer := r.2 } rest
    .ok (r.1 ++ t.1, t.2)

/-- `FileSystem.read_file`. -/
def read_file (s : FileSystem) (path : Str) : Except PyErr (Bytes × FileSystem) := do
  let r ← DirectoryManager.resolve_path s path
  match r.1.2 with
  | none => .ok ([], r.2)
  | some fcb =>
    if fcb.is_directory ∨ fcb.start_block = -1 then .ok ([], r.2)
    else do
      let g ← FATManager.get_file_blocks r.2 fcb.start_block
      let t ← readLoop g.2 g.1
      .ok (t.1.take fcb.size, t.2)

/-- The invalidate-and-free loop shared by `write_file` (truncation and
empty-content branches) and `delete_file`. -/
def freeLoop : FileSystem → List Nat → Except PyErr FileSystem
  | s, [] => .ok s
  | s, b :: rest => do
    let buf ← s.buffer.invalidate b
    let s ← FATManager.free_block { s with buffer := buf } (b : Int)
    freeLoop s rest

/-- The extension loop of `write_file` (lines 132–137); `none` signals the
`return False` on allocation failure. -/
def extendLoop : FileSystem → Nat → Nat → List Nat →
    Except PyErr (Option (Nat × List Nat) × FileSystem)
  | s, last_block, 0, acc => .ok (some (last_block, acc), s)
  | s, last_block, n + 1, acc => do
    let a ← FATManager.allocate_block s
    if a.1 = -1 then .ok (none, a.2)
    else do
      let s ← FATManager._write_entry a.2 last_block a.1.toNat
      extendLoop s a.1.toNat n (acc ++ [a.1.toNat])

/-- The chunked content write of `write_file` (lines 152–156). -/
def writeChunks : FileSystem → List Nat → Bytes → Except PyErr FileSystem
  | s, [], _ => .ok s
  | s, b :: rest, rem => do
    let buf ← s.buffer.write_page_owner b (rem.take 64)
    writeChunks { s with buffer := buf } rest (rem.drop 64)

/-- The shared tail of `write_file` (lines 152–165): write the chunks,
refresh `size`/`modify_time`, `flush_all`, repair `start_block`, persist
via `update_entry`. -/
def writeFileTail (s : FileSystem) (parent_fcb : Option FCB) (fcb : FCB)
    (final_block_list : List Nat) (content : Bytes) (needed_blocks : Nat) :
    Except PyErr (Bool × FileSystem) := do
  let s ← writeChunks s final_block_list content
  let fcb := { fcb with size := content.length, modify_time := s.sys_time }
  let s := { s with sys_time := s.sys_time + 1 }
  let buf ← s.buffer.flush_all
  let s := { s with buffer := buf }
  let fcb ←
    if 0 < needed_blocks ∧ fcb.start_block = -1 then
      match final_block_list.head? with
      | some h => pure { fcb with start_block := (h : Int) }
      | none => .error .keyError
    else pure fcb
  DirectoryManager.update_entry s parent_fcb fcb

/-- `FileSystem.write_file` — truncate-and-rewrite with chain reuse. -/
def write_file (s : FileSystem) (path : Str) (content : Bytes) :
    Except PyErr (Bool × FileSystem) := do
  let r ← DirectoryManager.resolve_path s path
  let parent_fcb := r.1.1
  match r.1.2 with
  | none => .ok (false, r.2)
  | some fcb0 =>
    if fcb0.is_directory then .ok (false, r.2)
    else do
      let needed_blocks :=
        if content.length = 0 then 0
        else (content.length + SystemConfig.BLOCK_SIZE - 1) / SystemConfig.BLOCK_SIZE
      let g ← FATManager.get_file_blocks r.2 fcb0.start_block
      let current_blocks := g.1
      let current_count := current_blocks.length
      if needed_blocks = 0 then do
        let s ← freeLoop g.2 current_blocks
        writeFileTail s parent_fcb { fcb0 with start_block := -1 } [] content needed_blocks
      else if current_count < needed_blocks then do
        let init ←
          if current_count = 0 then do
            let a ← FATManager.allocate_block g.2
            if a.1 = -1 then pure ((none : Option (List Nat × FCB × Nat)), a.2)
            else pure (some ([a.1.toNat], { fcb0 with start_block := a.1 }, 1), a.2)
          else pure (some (current_blocks, fcb0, current_count), g.2)
        match init.1 with
        | none => .ok (false, init.2)
        | some (final0, fcb, cnt) =>
          match final0.getLast? with
          | none => .error .keyError
          | some last0 => do
            let e ← extendLoop init.2 last0 (needed_blocks - cnt) final0
            match e.1 with
            | none => .ok (false, e.2)
            | some (last_block, final) => do
              let s ← FATManager._write_entry e.2 last_block SystemConfig.FAT_EOF
              writeFileTail s parent_fcb fcb final content needed_blocks
      else if needed_blocks < current_count then do
        let final := current_blocks.take needed_blocks
        let s ← freeLoop g.2 (current_blocks.drop needed_blocks)
        let s ←
          match final.getLast? with
          | some lastf => FATManager._write_entry s lastf SystemConfig.FAT_EOF
          | none => pure s
        writeFileTail s parent_fcb fcb0 final content needed_blocks
      else
        writeFileTail g.2 parent_fcb fcb0 current_blocks content needed_blocks

/-- `FileSystem.delete_file`. -/
def delete_file (s : FileSystem) (path : Str) : Except PyErr (Bool × FileSystem) :=
  if path ∈ s.opened_files then .ok (false, s)
  else do
    let r ← DirectoryManager.resolve_path s path
    match r.1.2 with
    | none => .ok (false, r.2)
    | some fcb => do
      let rm ← DirectoryManager.remove_entry r.2 path
      if rm.1 then do
        let g ← FATManager.get_file_blocks rm.2 fcb.start_block
        let s ← freeLoop g.2 g.1
        .ok (true, s)
      else .ok (false, rm.2)

/-- `FileSystem.list_files`: the catch-all `except: return []`.  On the
swallowed-exception path the state is exactly the entry state: every
failing run of `list_directory` raises `TypeError` at its first
`owner=`-keyword buffer read, before any mutation. -/
def list_files (s : FileSystem) (path : Str) : List FCB × FileSystem :=
  match DirectoryManager.list_directory s path with
  | .ok r => r
  | .error _ => ([], s)

/-- `FileSystem.lock_file`. -/
def lock_file (s : FileSystem) (n : Str) : FileSystem :=
  if n ∈ s.opened_files then s else { s with opened_files := s.opened_files ++ [n] }

/-- `FileSystem.unlock_file`. -/
def unlock_file (s : FileSystem) (n : Str) : FileSystem :=
  { s with opened_files := s.opened_files.filter (· ≠ n) }

/-- `FileSystem.__init__` on a fresh image: zero-filled device plus
superblock, empty buffer pool, then `_initialize_fat` (which swallows its
probe's `TypeError`) and `mark_system_blocks` (whose first `_write_entry`
raises `TypeError` with no handler, so construction itself fails). -/
def initFs : Except PyErr FileSystem := do
  let d0 : DiskManager := ⟨fun b => if b = 0 then norm64 superBlockBytes else zeros 64⟩
  let buf : BufferManager :=
    { disk := d0, capacity := SystemConfig.BUFFER_CAPACITY, buffer_pool := [],
      stats := { hit_count := 0, miss_count := 0, evict_count := 0, writeback_count := 0 },
      clock := 0 }
  let s : FileSystem := { buffer := buf, free_cache := none, opened_files := [], sys_time := 0 }
  let s ← FATManager.initFAT s
  FATManager.mark_system_blocks s

end FileSystem

/-! ## Store-level shadows

Pure functions over the byte store `view` (cache over device).  The
monadic operations above are proved equal to these shadows, which carry
the actual correctness arguments. -/

/-- A byte store: what `BufferManager.view` yields. -/
abbrev Store := Nat → Bytes

/-- The FAT entry of index `i` as read from a store. -/
def fatv (v : Store) (i : Nat) : Nat :=
  bytesToNatLE
    (extract (v (SystemConfig.FAT_START + i / FATManager.entries_per_block))
      ((i % FATManager.entries_per_block) * 4) 4)

/-- The free data-region blocks of a store, ascending: what
`_rebuild_free_cache` computes. -/
def freeList (v : Store) : List Nat :=
  (List.range' SystemConfig.DATA_START
      (min FATManager.total_entries SystemConfig.TOTAL_BLOCKS - SystemConfig.DATA_START)).filter
    (fun i => fatv v i == SystemConfig.FAT_FREE)

/-! ## Well-formedness invariants -/

/-- Buffer-pool well-formedness: distinct keys, nothing pinned (nothing in
the source ever calls `acquire`), bounded occupancy, clean pages agree
with the device, 64-byte payloads, valid block ids, and distinct
monotonic access stamps below the clock. -/
structure BufWF (s : BufferManager) : Prop where
  nodup : (s.buffer_pool.map BufferPage.block_id).Nodup
  refs : ∀ p ∈ s.buffer_pool, p.ref_count = 0
  size_le : s.buffer_pool.length ≤ s.capacity
  clean : ∀ p ∈ s.buffer_pool, p.is_dirty = false → p.data = s.disk.blocks p.block_id
  len64 : ∀ p ∈ s.buffer_pool, p.data.length = 64
  disk64 : ∀ b, b < SystemConfig.TOTAL_BLOCKS → (s.disk.blocks b).length = 64
  valid : ∀ p ∈ s.buffer_pool, p.block_id < SystemConfig.TOTAL_BLOCKS
  times_lt : ∀ p ∈ s.buffer_pool, p.last_access_time < s.clock
  times_nodup : (s.buffer_pool.map BufferPage.last_access_time).Nodup

/-- Filesystem-level well-formedness: a well-formed buffer and a
free-block cache that is either absent or exactly the store's free list. -/
structure FsWF (s : FileSystem) : Prop where
  buf : BufWF s.buffer
  cap_pos : 0 < s.buffer.capacity
  cache : s.free_cache = none ∨ s.free_cache = some (freeList s.buffer.view)

/-! ## Concrete states for witnesses and counterexamples -/

/-- A two-page buffer at capacity: block 10 dirty (stamp 5), block 20
clean (stamp 7), nothing pinned. -/
def bufC2 : BufferManager :=
  { disk := ⟨fun _ => zeros 64⟩
    capacity := 2
    buffer_pool :=
      [{ block_id := 10, data := zeros 64, is_dirty := true, last_access_time := 5,
         owner := ownerSystem, ref_count := 0 },
       { block_id := 20, data := zeros 64, is_dirty := false, last_access_time := 7,
         owner := ownerSystem, ref_count := 0 }]
    stats := { hit_count := 0, miss_count := 0, evict_count := 0, writeback_count := 0 }
    clock := 8 }

/-- A filesystem whose on-device FAT marks entry 1000 free (entry 1000
lives in FAT block 63 at offset 32): empty pool, no free-block cache. -/
def fsA : FileSystem :=
  { buffer :=
      { disk := ⟨fun b => if b = 63 then
          splice (zeros 64) 32 (natToBytesLE 4 SystemConfig.FAT_FREE) else zeros 64⟩
        capacity := 8
        buffer_pool := []
        stats := { hit_count := 0, miss_count := 0, evict_count := 0, writeback_count := 0 }
        clock := 0 }
    free_cache := none
    opened_files := []
    sys_time := 0 }

deriving instance DecidableEq for Except

/-- The raised exception of a computation, if any. -/
def errOf {α : Type} : Except PyErr α → Option PyErr
  | .error e => some e
  | .ok _ => none

/-- `"CON"`. -/
def strCON : Str := [67, 79, 78]

/-- `"/CON"`. -/
def strSlashCON : Str := [47, 67, 79, 78]

/-- `"/a "`. -/
def strSlashASpace : Str := [47, 97, 32]

/-- `"/f"`. -/
def strSlashF : Str := [47, 102]

/-- `"/d/x"` — a missing name `x` under the directory `d`. -/
def strDX : Str := [47, 100, 47, 120]

/-- `"/nope/f"` — a path through a missing intermediate directory. -/
def strNopeF : Str := [47, 110, 111, 112, 101, 47, 102]

/-- `"/m"` — a missing final component under the root. -/
def strSlashM : Str := [47, 109]

/-- A zeroed disk image with one free block (97) already cached: the
stage for the create/read round-trip run. -/
def sC1 : FileSystem :=
  { buffer :=
      { disk := ⟨fun _ => zeros 64⟩
        capacity := 8
        buffer_pool := []
        stats := { hit_count := 0, miss_count := 0, evict_count := 0, writeback_count := 0 }
        clock := 0 }
    free_cache := some [97]
    opened_files := []
    sys_time := 0 }

/-- The file `f` sitting in the first root-directory slot: empty, with no
data chain. -/
def fcbF : FCB :=
  { name := [102], size := 0, start_block := -1, create_time := 0, modify_time := 0,
    is_directory := false }

/-- A filesystem with the single file `/f` (root slot at block 65) and
two free blocks cached: the stage for the `write_file` flush-order run. -/
def sC3 : FileSystem :=
  { buffer :=
      { disk := ⟨fun b => if b = 65 then FCB.to_bytes fcbF else zeros 64⟩
        capacity := 8
        buffer_pool := []
        stats := { hit_count := 0, miss_count := 0, evict_count := 0, writeback_count := 0 }
        clock := 0 }
    free_cache := some [97, 98]
    opened_files := []
    sys_time := 0 }

/-- The directory `d` at data block 200. -/
def fcbD : FCB :=
  { name := [100], size := 0, start_block := 200, create_time := 0, modify_time := 0,
    is_directory := true }

/-- The file `e` inside `d`. -/
def fcbE : FCB :=
  { name := [101], size := 0, start_block := -1, create_time := 0, modify_time := 0,
    is_directory := false }

/-- A filesystem with the directory `/d` (root slot at block 65, data
block 200, FAT entry 200 = `EOF`) containing the single file `e`. -/
def sC8 : FileSystem :=
  { buffer :=
      { disk := ⟨fun b =>
          if b = 65 then FCB.to_bytes fcbD
          else if b = 200 then FCB.to_bytes fcbE
          else if b = 13 then splice (zeros 64) 32 (natToBytesLE 4 SystemConfig.FAT_EOF)
          else zeros 64⟩
        capacity := 8
        buffer_pool := []
        stats := { hit_count := 0, miss_count := 0, evict_count := 0, writeback_count := 0 }
        clock := 0 }
    free_cache := none
    opened_files := []
    sys_time := 0 }

/-- Like `sC8`, but the directory `/d` is empty: its data block 200 is
all zeros. -/
def sC7e : FileSystem :=
  { buffer :=
      { disk := ⟨fun b =>
          if b = 65 then FCB.to_bytes fcbD
          else if b = 13 then splice (zeros 64) 32 (natToBytesLE 4 SystemConfig.FAT_EOF)
          else zeros 64⟩
        capacity := 8
        buffer_pool := []
        stats := { hit_count := 0, miss_count := 0, evict_count := 0, writeback_count := 0 }
        clock := 0 }
    free_cache := none
    opened_files := []
    sys_time := 0 }

/-- `"/d"`. -/
def strSlashD : Str := [47, 100]

/-! # Theorems

## Byte-level lemmas -/

theorem natToBytesLE_length (k n : Nat) : (natToBytesLE k n).length = k := by
  induction k generalizing n with
  | zero => rfl
  | succ k ih => simp [natToBytesLE, ih]

theorem bytesToNatLE_natToBytesLE (k n : Nat) :
    bytesToNatLE (natToBytesLE k n) = n % 256 ^ k := by
  induction k generalizing n with
  | zero => simp [natToBytesLE, bytesToNatLE, Nat.mod_one]
  | succ k ih =>
    rw [natToBytesLE, bytesToNatLE, ih, Nat.pow_succ', Nat.mod_mul]

theorem zeros_length (n : Nat) : (zeros n).length = n := by
  simp [zeros]

theorem norm64_length (d : Bytes) : (norm64 d).length = 64 := by
  unfold norm64
  split
  · simp; omega
  · simp [zeros]; omega

theorem norm64_of_length (d : Bytes) (h : d.length = 64) : norm64 d = d := by
  unfold norm64
  rw [h]
  simp [zeros]

theorem extract_length (l : Bytes) (off k : Nat) (h : off + k ≤ l.length) :
    (extract l off k).length = k := by
  simp [extract]
  omega

theorem extract_getElem (l : Bytes) (off k j : Nat) :
    (extract l off k)[j]? = if j < k then l[off + j]? else none := by
  simp [extract, List.getElem?_take, List.getElem?_drop]

theorem splice_length (l seg : Bytes) (off : Nat) (h : off + seg.length ≤ l.length) :
    (splice l off seg).length = l.length := by
  simp [splice]
  omega

theorem splice_getElem (l seg : Bytes) (off : Nat) (h : off + seg.length ≤ l.length) (i : Nat) :
    (splice l off seg)[i]? =
      if i < off then l[i]?
      else if i < off + seg.length then seg[i - off]?
      else l[i]? := by
  have hoff : off ≤ l.length := by omega
  have hlen1 : (List.take off l).length = off := by simp; omega
  have hlen2 : (List.take off l ++ seg).length = off + seg.length := by simp; omega
  unfold splice
  by_cases h1 : i < off
  · have ha : i < (List.take off l ++ seg).length := by omega
    have hb : i < (List.take off l).length := by omega
    rw [List.getElem?_append_left ha, List.getElem?_append_left hb,
      List.getElem?_take_of_lt h1, if_pos h1]
  · by_cases h2 : i < off + seg.length
    · have ha : i < (List.take off l ++ seg).length := by omega
      have hb : (List.take off l).length ≤ i := by omega
      rw [List.getElem?_append_left ha, List.getElem?_append_right hb, hlen1,
        if_neg h1, if_pos h2]
    · have ha : (List.take off l ++ seg).length ≤ i := by omega
      rw [List.getElem?_append_right ha, hlen2, List.getElem?_drop, if_neg h1, if_neg h2]
      congr 1
      omega

theorem extract_splice_self (l seg : Bytes) (off : Nat) (h : off + seg.length ≤ l.length) :
    extract (splice l off seg) off seg.length = seg := by
  apply List.ext_getElem?
  intro n
  rw [extract_getElem]
  by_cases hn : n < seg.length
  · rw [if_pos hn, splice_getElem l seg off h, if_neg (by omega), if_pos (by omega)]
    congr 1
    omega
  · rw [if_neg hn]
    exact (List.getElem?_eq_none (by omega)).symm

theorem extract_splice_disjoint (l seg : Bytes) (off off2 k : Nat)
    (h : off + seg.length ≤ l.length)
    (hdisj : off2 + k ≤ off ∨ off + seg.length ≤ off2) :
    extract (splice l off seg) off2 k = extract l off2 k := by
  apply List.ext_getElem?
  intro n
  rw [extract_getElem, extract_getElem]
  by_cases hn : n < k
  · simp only [hn, if_pos]
    rw [splice_getElem l seg off h]
    rcases hdisj with hd | hd
    · rw [if_pos (by omega)]
    · rw [if_neg (by omega), if_neg (by omega)]
  · simp [hn]

theorem extract_zero_of_length (l : Bytes) (h : l.length = 64) : extract l 0 64 = l := by
  simp [extract]
  omega

theorem splice_zero_full (l seg : Bytes) (h : l.length = 64) (hs : seg.length = 64) :
    splice l 0 seg = seg := by
  have hd : l.drop (0 + seg.length) = [] := List.drop_eq_nil_of_le (by omega)
  simp only [splice, List.take_zero, List.nil_append, hd, List.append_nil]

/-! ## Pool lemmas -/

theorem poolFind_map_pres (pool : List BufferPage) (f : BufferPage → BufferPage)
    (hf : ∀ p, (f p).block_id = p.block_id) (x : Nat) :
    poolFind (pool.map f) x = (poolFind pool x).map f := by
  induction pool with
  | nil => rfl
  | cons p rest ih =>
    simp only [poolFind, List.map_cons, List.find?]
    rw [hf p]
    by_cases h : p.block_id == x
    · simp [h]
    · simp only [h]
      exact ih

theorem poolFind_filter_ne (pool : List BufferPage) (v x : Nat) :
    poolFind (pool.filter (fun p => ¬(p.block_id == v))) x =
      if x = v then none else poolFind pool x := by
  induction pool with
  | nil => simp [poolFind]
  | cons p rest ih =>
    simp only [poolFind] at ih ⊢
    rw [List.filter_cons]
    by_cases hv : p.block_id = v
    · rw [if_neg (by simp [hv]), ih]
      rcases eq_or_ne x v with hx | hx
      · simp [hx]
      · have hb : (p.block_id == x) = false := by
          simp
          omega
        rw [if_neg hx, if_neg hx]
        simp only [List.find?, hb]
    · rw [if_pos (by simp [hv])]
      simp only [List.find?]
      by_cases hx : p.block_id = x
      · have hb : (p.block_id == x) = true := by simp [hx]
        simp only [hb]
        rw [if_neg (by omega)]
      · have hb : (p.block_id == x) = false := by simp [hx]
        simp only [hb]
        exact ih

theorem poolFind_append_single (pool : List BufferPage) (page : BufferPage) (x : Nat) :
    poolFind (pool ++ [page]) x =
      match poolFind pool x with
      | some p => some p
      | none => if page.block_id = x then some page else none := by
  induction pool with
  | nil =>
    simp only [poolFind, List.nil_append, List.find?]
    by_cases h : page.block_id = x
    · have hb : (page.block_id == x) = true := by simp [h]
      simp [hb, h]
    · have hb : (page.block_id == x) = false := by simp [h]
      simp [hb, h]
  | cons p rest ih =>
    simp only [poolFind, List.cons_append, List.find?] at ih ⊢
    by_cases h : (p.block_id == x) = true
    · simp [h]
    · rw [Bool.not_eq_true] at h
      simp only [h]
      exact ih

theorem poolFind_of_mem_nodup (pool : List BufferPage) (p : BufferPage)
    (hmem : p ∈ pool) (hnodup : (pool.map BufferPage.block_id).Nodup) :
    poolFind pool p.block_id = some p := by
  induction pool with
  | nil => cases hmem
  | cons q rest ih =>
    simp only [List.map_cons, List.nodup_cons] at hnodup
    rcases List.mem_cons.mp hmem with h | h
    · subst h
      simp [poolFind, List.find?]
    · have hne : q.block_id ≠ p.block_id := by
        intro he
        exact hnodup.1 (he ▸ List.mem_map_of_mem BufferPage.block_id h)
      have : (q.block_id == p.block_id) = false := by simp [hne]
      simp only [poolFind, List.find?, this]
      exact ih h hnodup.2

theorem poolFind_mem (pool : List BufferPage) (x : Nat) (p : BufferPage)
    (h : poolFind pool x = some p) : p ∈ pool ∧ p.block_id = x := by
  have hm := List.mem_of_find?_eq_some h
  have hp := List.find?_some h
  exact ⟨hm, by simpa using hp⟩

theorem view_of_find_some {s : BufferManager} {b : Nat} {p : BufferPage}
    (h : poolFind s.buffer_pool b = some p) : s.view b = p.data := by
  unfold BufferManager.view
  rw [h]

theorem view_of_find_none {s : BufferManager} {b : Nat}
    (h : poolFind s.buffer_pool b = none) : s.view b = s.disk.blocks b := by
  unfold BufferManager.view
  rw [h]

theorem filter_ne_length (pool : List BufferPage) (m : BufferPage) (hmem : m ∈ pool)
    (hnodup : (pool.map BufferPage.block_id).Nodup) :
    (pool.filter (fun p => ¬(p.block_id == m.block_id))).length + 1 = pool.length := by
  induction pool with
  | nil => cases hmem
  | cons p rest ih =>
    simp only [List.map_cons, List.nodup_cons] at hnodup
    rcases List.mem_cons.mp hmem with h | h
    · subst h
      rw [List.filter_cons, if_neg (by simp)]
      have hkeep : rest.filter (fun p => ¬(p.block_id == m.block_id)) = rest :=
        List.filter_eq_self.mpr (fun q hq => by
          simp only [decide_not, Bool.not_eq_true', decide_eq_false_iff_not, beq_iff_eq]
          intro he
          exact hnodup.1 (he ▸ List.mem_map_of_mem BufferPage.block_id hq))
      rw [hkeep]
      simp
    · have hne : p.block_id ≠ m.block_id := by
        intro he
        exact hnodup.1 (he ▸ List.mem_map_of_mem BufferPage.block_id h)
      rw [List.filter_cons, if_pos (by simp [hne])]
      have := ih h hnodup.2
      simp only [List.length_cons]
      omega

/-! ## Buffer-manager operation specifications -/

@[simp] theorem exceptBind_ok {α β : Type} (a : α) (f : α → Except PyErr β) :
    (Except.ok a >>= f) = f a := rfl

@[simp] theorem exceptBind_error {α β : Type} (e : PyErr) (f : α → Except PyErr β) :
    ((Except.error e : Except PyErr α) >>= f) = Except.error e := rfl

@[simp] theorem exceptPure_def {α : Type} (a : α) :
    (pure a : Except PyErr α) = Except.ok a := rfl

theorem argmin_go_spec (l : List BufferPage) (acc : BufferPage) :
    ∃ m,
      (l.foldl
        (fun acc p =>
          match acc with
          | none => some p
          | some q => if p.last_access_time < q.last_access_time then some p else some q)
        (some acc)) = some m ∧
      (m = acc ∨ m ∈ l) ∧ m.last_access_time ≤ acc.last_access_time ∧
      (∀ q ∈ l, m.last_access_time ≤ q.last_access_time) := by
  induction l generalizing acc with
  | nil => exact ⟨acc, rfl, .inl rfl, le_refl _, by simp⟩
  | cons p rest ih =>
    simp only [List.foldl]
    by_cases hc : p.last_access_time < acc.last_access_time
    · rw [if_pos hc]
      obtain ⟨m, hm, hmem, hle, hall⟩ := ih p
      refine ⟨m, hm, ?_, ?_, ?_⟩
      · rcases hmem with h | h
        · exact .inr (h ▸ List.mem_cons_self p rest)
        · exact .inr (List.mem_cons_of_mem p h)
      · exact le_trans hle (le_of_lt hc)
      · intro q hq
        rcases List.mem_cons.mp hq with h | h
        · exact h ▸ hle
        · exact hall q h
    · rw [if_neg hc]
      obtain ⟨m, hm, hmem, hle, hall⟩ := ih acc
      refine ⟨m, hm, ?_, hle, ?_⟩
      · rcases hmem with h | h
        · exact .inl h
        · exact .inr (List.mem_cons_of_mem p h)
      · intro q hq
        rcases List.mem_cons.mp hq with h | h
        · subst h
          omega
        · exact hall q h

theorem argminTime_spec (l : List BufferPage) (hne : l ≠ []) :
    ∃ m, BufferManager.argminTime l = some m ∧ m ∈ l ∧
      ∀ q ∈ l, m.last_access_time ≤ q.last_access_time := by
  match l, hne with
  | p :: rest, _ =>
    unfold BufferManager.argminTime
    simp only [List.foldl]
    obtain ⟨m, hm, hmem, _, hall⟩ := argmin_go_spec rest p
    refine ⟨m, hm, ?_, ?_⟩
    · rcases hmem with h | h
      · exact h ▸ List.mem_cons_self p rest
      · exact List.mem_cons_of_mem p h
    · intro q hq
      rcases List.mem_cons.mp hq with h | h
      · subst h
        obtain ⟨_, _, hle, _⟩ := argmin_go_spec rest q
        omega
      · exact hall q h

theorem evict_lru_spec (s : BufferManager) (hWF : BufWF s) (hne : s.buffer_pool ≠ []) :
    ∃ victim s',
      s._evict_lru = .ok s' ∧
      victim ∈ s.buffer_pool ∧
      (∀ q ∈ s.buffer_pool, victim.last_access_time ≤ q.last_access_time) ∧
      s'.buffer_pool = s.buffer_pool.filter (fun p => ¬(p.block_id == victim.block_id)) ∧
      s'.stats = s.stats.record_eviction victim.is_dirty ∧
      s'.clock = s.clock ∧
      s'.capacity = s.capacity ∧
      (s'.disk.blocks = fun b =>
        if victim.is_dirty = true ∧ b = victim.block_id then norm64 victim.data
        else s.disk.blocks b) ∧
      BufWF s' ∧
      (∀ x, s'.view x = s.view x) ∧
      s'.buffer_pool.length + 1 = s.buffer_pool.length := by
  have hfil : s.buffer_pool.filter (fun p => p.ref_count == 0) = s.buffer_pool :=
    List.filter_eq_self.mpr (fun p hp => by simp [hWF.refs p hp])
  obtain ⟨m, hm, hmem, hmin⟩ := argminTime_spec s.buffer_pool hne
  have hmid : m.block_id < SystemConfig.TOTAL_BLOCKS := hWF.valid m hmem
  have hfind : poolFind s.buffer_pool m.block_id = some m :=
    poolFind_of_mem_nodup s.buffer_pool m hmem hWF.nodup
  -- the state after eviction
  set pool' := s.buffer_pool.filter (fun p => ¬(p.block_id == m.block_id)) with hpool'
  set disk' : DiskManager :=
    ⟨fun b => if m.is_dirty = true ∧ b = m.block_id then norm64 m.data else s.disk.blocks b⟩
    with hdisk'
  have hstep : s._evict_lru = .ok
      { s with
        disk := disk'
        stats := s.stats.record_eviction m.is_dirty
        buffer_pool := pool' } := by
    unfold BufferManager._evict_lru
    simp only [hfil, hm]
    have hdisk2 : disk' = ⟨fun b =>
        if m.is_dirty = true ∧ b = m.block_id then norm64 m.data else s.disk.blocks b⟩ := hdisk'
    cases hd : m.is_dirty with
    | true =>
      simp only [hd, if_true, DiskManager.write_block, if_pos hmid, exceptBind_ok]
      have : (⟨fun b => if b = m.block_id then norm64 m.data else s.disk.blocks b⟩ :
          DiskManager) = disk' := by
        rw [hdisk2]
        congr 1
        funext b
        by_cases hb : b = m.block_id
        · simp [hb, hd]
        · simp [hb, hd]
      rw [this]
    | false =>
      simp only [hd, Bool.false_eq_true, if_false, exceptPure_def, exceptBind_ok]
      have : s.disk = disk' := by
        rw [hdisk2]
        cases s.disk with
        | mk blocks =>
          congr 1
          funext b
          simp [hd]
      rw [← this]
  have hsub : List.Sublist pool' s.buffer_pool := List.filter_sublist _
  have hmemf : ∀ p ∈ pool', p ∈ s.buffer_pool := fun p hp => (List.mem_filter.mp hp).1
  have hidf : ∀ p ∈ pool', p.block_id ≠ m.block_id := fun p hp => by
    have h2 := (List.mem_filter.mp hp).2
    simpa using h2
  have hWF' : BufWF
      { s with
        disk := disk'
        stats := s.stats.record_eviction m.is_dirty
        buffer_pool := pool' } := by
    refine ⟨?_, ?_, ?_, ?_, ?_, ?_, ?_, ?_, ?_⟩
    · exact (hWF.nodup.sublist (hsub.map BufferPage.block_id))
    · exact fun p hp => hWF.refs p (hmemf p hp)
    · have hlen := filter_ne_length s.buffer_pool m hmem hWF.nodup
      have hc := hWF.size_le
      show pool'.length ≤ s.capacity
      rw [hpool']
      omega
    · intro p hp hcl
      have hidne : p.block_id ≠ m.block_id := hidf p hp
      have := hWF.clean p (hmemf p hp) hcl
      simp only [hdisk']
      rw [if_neg (by simp [hidne])]
      exact this
    · exact fun p hp => hWF.len64 p (hmemf p hp)
    · intro b hb
      simp only [hdisk']
      by_cases hcase : m.is_dirty = true ∧ b = m.block_id
      · rw [if_pos hcase, norm64_length]
      · rw [if_neg hcase]
        exact hWF.disk64 b hb
    · exact fun p hp => hWF.valid p (hmemf p hp)
    · exact fun p hp => hWF.times_lt p (hmemf p hp)
    · exact hWF.times_nodup.sublist (hsub.map BufferPage.last_access_time)
  have hview : ∀ x, BufferManager.view
      { s with
        disk := disk'
        stats := s.stats.record_eviction m.is_dirty
        buffer_pool := pool' } x = s.view x := by
    intro x
    have hfilx : poolFind pool' x = if x = m.block_id then none else poolFind s.buffer_pool x := by
      rw [hpool']
      exact poolFind_filter_ne s.buffer_pool m.block_id x
    by_cases hx : x = m.block_id
    · rw [if_pos hx] at hfilx
      have e1 : BufferManager.view
          { s with
            disk := disk'
            stats := s.stats.record_eviction m.is_dirty
            buffer_pool := pool' } x = disk'.blocks x := view_of_find_none hfilx
      have e2 : s.view x = m.data :=
        view_of_find_some (show poolFind s.buffer_pool x = some m from hx ▸ hfind)
      rw [e1, e2, hdisk']
      cases hd : m.is_dirty with
      | true =>
        show (if true = true ∧ x = m.block_id then norm64 m.data else s.disk.blocks x) = m.data
        rw [if_pos ⟨rfl, hx⟩]
        exact norm64_of_length _ (hWF.len64 m hmem)
      | false =>
        show (if false = true ∧ x = m.block_id then norm64 m.data else s.disk.blocks x) = m.data
        rw [if_neg (by simp), hx]
        exact (hWF.clean m hmem hd).symm
    · rw [if_neg hx] at hfilx
      cases hf : poolFind s.buffer_pool x with
      | some p =>
        have e1 : BufferManager.view
            { s with
              disk := disk'
              stats := s.stats.record_eviction m.is_dirty
              buffer_pool := pool' } x = p.data := view_of_find_some (hfilx.trans hf)
        have e2 : s.view x = p.data := view_of_find_some hf
        rw [e1, e2]
      | none =>
        have e1 : BufferManager.view
            { s with
              disk := disk'
              stats := s.stats.record_eviction m.is_dirty
              buffer_pool := pool' } x = disk'.blocks x :=
          view_of_find_none (hfilx.trans hf)
        have e2 : s.view x = s.disk.blocks x := view_of_find_none hf
        rw [e1, e2, hdisk']
        show (if m.is_dirty = true ∧ x = m.block_id then norm64 m.data else s.disk.blocks x) =
          s.disk.blocks x
        exact if_neg (fun hc => hx hc.2)
  refine ⟨m, _, hstep, hmem, hmin, rfl, rfl, rfl, rfl, rfl, hWF', hview, ?_⟩
  have := filter_ne_length s.buffer_pool m hmem hWF.nodup
  simpa [hpool'] using this

theorem touchPool_id (pool : List BufferPage) (b c : Nat)
    (h : ∀ q ∈ pool, q.block_id ≠ b) : BufferManager.touchPool pool b c = pool := by
  induction pool with
  | nil => rfl
  | cons p rest ih =>
    unfold BufferManager.touchPool
    simp only [List.map_cons]
    rw [if_neg (by simp [h p (List.mem_cons_self p rest)])]
    have := ih (fun q hq => h q (List.mem_cons_of_mem p hq))
    unfold BufferManager.touchPool at this
    rw [this]

theorem touchPool_ids (pool : List BufferPage) (b c : Nat) :
    (BufferManager.touchPool pool b c).map BufferPage.block_id =
      pool.map BufferPage.block_id := by
  unfold BufferManager.touchPool
  rw [List.map_map]
  apply List.map_congr_left
  intro p _
  by_cases hp : p.block_id = b
  · simp [hp]
  · simp [hp]

theorem touchPool_mem (pool : List BufferPage) (b c : Nat) (q : BufferPage)
    (hq : q ∈ BufferManager.touchPool pool b c) :
    ∃ p ∈ pool, (q = p ∨ q = { p with last_access_time := c }) := by
  unfold BufferManager.touchPool at hq
  obtain ⟨p, hp, he⟩ := List.mem_map.mp hq
  by_cases hid : p.block_id = b
  · rw [if_pos (by simp [hid])] at he
    exact ⟨p, hp, .inr he.symm⟩
  · rw [if_neg (by simp [hid])] at he
    exact ⟨p, hp, .inl he.symm⟩

theorem touchPool_times_nodup (pool : List BufferPage) (b c : Nat)
    (hlt : ∀ p ∈ pool, p.last_access_time < c)
    (hnd : (pool.map BufferPage.last_access_time).Nodup)
    (hid : (pool.map BufferPage.block_id).Nodup) :
    ((BufferManager.touchPool pool b c).map BufferPage.last_access_time).Nodup := by
  induction pool with
  | nil => exact List.nodup_nil
  | cons p rest ih =>
    simp only [List.map_cons, List.nodup_cons] at hnd hid
    unfold BufferManager.touchPool
    simp only [List.map_cons]
    by_cases hp : p.block_id = b
    · rw [if_pos (by simp [hp])]
      have hrest : BufferManager.touchPool rest b c = rest :=
        touchPool_id rest b c (fun q hq hqb => hid.1 (by
          rw [hp, ← hqb]
          exact List.mem_map_of_mem _ hq))
      unfold BufferManager.touchPool at hrest
      rw [hrest]
      simp only [List.map_cons, List.nodup_cons]
      refine ⟨?_, hnd.2⟩
      intro hc
      obtain ⟨q, hq, he⟩ := List.mem_map.mp hc
      have := hlt q (List.mem_cons_of_mem p hq)
      omega
    · rw [if_neg (by simp [hp])]
      have htail := ih (fun q hq => hlt q (List.mem_cons_of_mem p hq)) hnd.2 hid.2
      simp only [List.nodup_cons]
      refine ⟨?_, htail⟩
      intro hc
      obtain ⟨q, hq, he⟩ := List.mem_map.mp hc
      obtain ⟨q0, hq0, hcase⟩ := touchPool_mem rest b c q hq
      rcases hcase with h0 | h0
      · subst h0
        exact hnd.1 (he ▸ List.mem_map_of_mem BufferPage.last_access_time hq0)
      · subst h0
        simp only at he
        have := hlt p (List.mem_cons_self p rest)
        omega

theorem poolFind_none_iff (pool : List BufferPage) (b : Nat) :
    poolFind pool b = none ↔ ∀ p ∈ pool, p.block_id ≠ b := by
  unfold poolFind
  rw [List.find?_eq_none]
  simp

theorem install_spec (s : BufferManager) (b : Nat) (hWF : BufWF s)
    (hb : b < SystemConfig.TOTAL_BLOCKS)
    (hroom : s.buffer_pool.length < s.capacity)
    (hf : poolFind s.buffer_pool b = none) :
    ∃ s', s.installPage b = .ok (s.view b, s') ∧ BufWF s' ∧
      (∀ x, s'.view x = s.view x) ∧ s'.capacity = s.capacity ∧ s'.stats = s.stats ∧
      (∃ p, poolFind s'.buffer_pool b = some p ∧ p.data = s.view b) := by
  have hnotin : ∀ p ∈ s.buffer_pool, p.block_id ≠ b := (poolFind_none_iff _ _).mp hf
  have hview0 : s.view b = s.disk.blocks b := view_of_find_none hf
  set page : BufferPage :=
    { block_id := b, data := s.disk.blocks b, is_dirty := false
      last_access_time := s.clock, owner := ownerSystem, ref_count := 0 } with hpage
  have hrun : s.installPage b = .ok (s.disk.blocks b,
      { s with buffer_pool := s.buffer_pool ++ [page], clock := s.clock + 1 }) := by
    unfold BufferManager.installPage
    simp only [DiskManager.read_block, if_pos hb, exceptBind_ok]
  have hfindb : poolFind (s.buffer_pool ++ [page]) b = some page := by
    rw [poolFind_append_single, hf]
    simp [hpage]
  have hfindx : ∀ x, x ≠ b →
      poolFind (s.buffer_pool ++ [page]) x = poolFind s.buffer_pool x := by
    intro x hx
    rw [poolFind_append_single]
    cases hg : poolFind s.buffer_pool x with
    | some q => rfl
    | none =>
      rw [if_neg (by simp [hpage]; omega)]
  refine ⟨{ s with buffer_pool := s.buffer_pool ++ [page], clock := s.clock + 1 },
    ?_, ?_, ?_, rfl, rfl, ⟨page, hfindb, by rw [hview0]⟩⟩
  · rw [hrun, hview0]
  · refine ⟨?_, ?_, ?_, ?_, ?_, ?_, ?_, ?_, ?_⟩
    · show ((s.buffer_pool ++ [page]).map BufferPage.block_id).Nodup
      rw [List.map_append]
      rw [List.nodup_append]
      refine ⟨hWF.nodup, by simp, ?_⟩
      intro i hi
      simp only [List.map_cons, List.map_nil, List.mem_singleton]
      obtain ⟨p, hp, he⟩ := List.mem_map.mp hi
      intro hc
      rw [hc] at he
      exact hnotin p hp (by simpa [hpage] using he)
    · intro p hp
      rcases List.mem_append.mp hp with h | h
      · exact hWF.refs p h
      · simp only [List.mem_singleton] at h
        simp [h, hpage]
    · show (s.buffer_pool ++ [page]).length ≤ s.capacity
      simp only [List.length_append, List.length_cons, List.length_nil]
      omega
    · intro p hp hcl
      rcases List.mem_append.mp hp with h | h
      · exact hWF.clean p h hcl
      · simp only [List.mem_singleton] at h
        simp [h, hpage]
    · intro p hp
      rcases List.mem_append.mp hp with h | h
      · exact hWF.len64 p h
      · simp only [List.mem_singleton] at h
        simp [h, hpage]
        exact hWF.disk64 b hb
    · exact hWF.disk64
    · intro p hp
      rcases List.mem_append.mp hp with h | h
      · exact hWF.valid p h
      · simp only [List.mem_singleton] at h
        simp [h, hpage, hb]
    · intro p hp
      rcases List.mem_append.mp hp with h | h
      · exact Nat.lt_succ_of_lt (hWF.times_lt p h)
      · simp only [List.mem_singleton] at h
        simp [h, hpage]
    · show ((s.buffer_pool ++ [page]).map BufferPage.last_access_time).Nodup
      rw [List.map_append, List.nodup_append]
      refine ⟨hWF.times_nodup, by simp, ?_⟩
      intro t ht
      simp only [List.map_cons, List.map_nil, List.mem_singleton]
      obtain ⟨p, hp, he⟩ := List.mem_map.mp ht
      intro hc
      rw [hc] at he
      have he' : p.last_access_time = s.clock := by simpa [hpage] using he
      have := hWF.times_lt p hp
      omega
  · intro x
    by_cases hx : x = b
    · subst hx
      rw [view_of_find_some hfindb, hview0]
    · cases hg : poolFind s.buffer_pool x with
      | some q =>
        rw [view_of_find_some ((hfindx x hx).trans hg), view_of_find_some hg]
      | none =>
        rw [view_of_find_none ((hfindx x hx).trans hg), view_of_find_none hg]

theorem read_page_miss_spec (s : BufferManager) (b : Nat) (hWF : BufWF s)
    (hb : b < SystemConfig.TOTAL_BLOCKS) (hcap : 0 < s.capacity)
    (hf : poolFind s.buffer_pool b = none) :
    ∃ s', s.read_page_miss b = .ok (s.view b, s') ∧ BufWF s' ∧
      (∀ x, s'.view x = s.view x) ∧ s'.capacity = s.capacity ∧
      (∃ p, poolFind s'.buffer_pool b = some p ∧ p.data = s.view b) := by
  unfold BufferManager.read_page_miss
  by_cases hfull : s.capacity ≤ s.buffer_pool.length
  · have hne : s.buffer_pool ≠ [] := by
      intro hnil
      rw [hnil] at hfull
      simp at hfull
      omega
    obtain ⟨m, s₂, hstep, hmmem, _, hpool₂, _, hclock₂, hcap₂, _, hWF₂, hview₂, hlen₂⟩ :=
      evict_lru_spec s hWF hne
    have hmb : m.block_id ≠ b := (poolFind_none_iff _ _).mp hf m hmmem
    have hf₂ : poolFind s₂.buffer_pool b = none := by
      rw [hpool₂, poolFind_filter_ne, if_neg (by omega)]
      exact hf
    have hroom₂ : s₂.buffer_pool.length < s₂.capacity := by
      have := hWF.size_le
      omega
    obtain ⟨s', hrun, hWF', hview', hcap', _, hres⟩ := install_spec s₂ b hWF₂ hb hroom₂ hf₂
    rw [if_pos hfull, hstep]
    refine ⟨s', ?_, hWF', ?_, by omega, ?_⟩
    · rw [exceptBind_ok]
      show s₂.installPage b = Except.ok (s.view b, s')
      rw [hrun, hview₂ b]
    · intro x
      rw [hview' x, hview₂ x]
    · obtain ⟨p, hp1, hp2⟩ := hres
      exact ⟨p, hp1, by rw [hp2, hview₂ b]⟩
  · rw [if_neg hfull, exceptPure_def, exceptBind_ok]
    obtain ⟨s', hrun, hWF', hview', hcap', _, hres⟩ :=
      install_spec s b hWF hb (by omega) hf
    exact ⟨s', hrun, hWF', hview', hcap', hres⟩

theorem read_page_spec (s : BufferManager) (b : Nat) (hWF : BufWF s)
    (hb : b < SystemConfig.TOTAL_BLOCKS) (hcap : 0 < s.capacity) :
    ∃ s', s.read_page b = .ok (s.view b, s') ∧ BufWF s' ∧
      (∀ x, s'.view x = s.view x) ∧
      s'.capacity = s.capacity ∧
      (∃ p, poolFind s'.buffer_pool b = some p ∧ p.data = s.view b) := by
  unfold BufferManager.read_page
  cases hf : poolFind s.buffer_pool b with
  | some page =>
    -- cache hit
    have hdata : s.view b = page.data := view_of_find_some hf
    have hpmem := (poolFind_mem _ _ _ hf).1
    have hpid := (poolFind_mem _ _ _ hf).2
    set pool₂ := BufferManager.touchPool s.buffer_pool b s.clock with hpool₂
    have hids : pool₂.map BufferPage.block_id = s.buffer_pool.map BufferPage.block_id :=
      touchPool_ids _ _ _
    have hmem₂ : ∀ q ∈ pool₂, ∃ p ∈ s.buffer_pool,
        (q = p ∨ q = { p with last_access_time := s.clock }) :=
      fun q hq => touchPool_mem _ _ _ q hq
    have hfind₂ : poolFind pool₂ b =
        some { page with last_access_time := s.clock } := by
      rw [hpool₂]
      unfold BufferManager.touchPool
      rw [poolFind_map_pres _ _ (fun p => by by_cases hc : p.block_id = b <;> simp [hc]), hf]
      simp [hpid]
    refine ⟨{ s with buffer_pool := pool₂, clock := s.clock + 1, stats := s.stats.record_hit },
      ?_, ?_, ?_, rfl, ?_⟩
    · show Except.ok (page.data, ({ s with buffer_pool := pool₂, clock := s.clock + 1, stats := s.stats.record_hit } : BufferManager)) = _
      rw [hdata]
    · refine ⟨?_, ?_, ?_, ?_, ?_, ?_, ?_, ?_, ?_⟩
      · show (pool₂.map BufferPage.block_id).Nodup
        rw [hids]
        exact hWF.nodup
      · intro q hq
        obtain ⟨p, hp, hc⟩ := hmem₂ q hq
        rcases hc with hc | hc <;> rw [hc] <;> exact hWF.refs p hp
      · show pool₂.length ≤ s.capacity
        have : pool₂.length = s.buffer_pool.length := by
          have := congrArg List.length hids
          simpa using this
        rw [this]
        exact hWF.size_le
      · intro q hq hcl
        obtain ⟨p, hp, hc⟩ := hmem₂ q hq
        rcases hc with hc | hc <;> rw [hc] at hcl ⊢ <;> exact hWF.clean p hp hcl
      · intro q hq
        obtain ⟨p, hp, hc⟩ := hmem₂ q hq
        rcases hc with hc | hc <;> rw [hc] <;> exact hWF.len64 p hp
      · exact hWF.disk64
      · intro q hq
        obtain ⟨p, hp, hc⟩ := hmem₂ q hq
        rcases hc with hc | hc <;> rw [hc] <;> exact hWF.valid p hp
      · intro q hq
        obtain ⟨p, hp, hc⟩ := hmem₂ q hq
        rcases hc with hc | hc <;> rw [hc]
        · exact Nat.lt_succ_of_lt (hWF.times_lt p hp)
        · exact Nat.lt_succ_self _
      · exact touchPool_times_nodup _ _ _ hWF.times_lt hWF.times_nodup hWF.nodup
    · intro x
      by_cases hx : x = b
      · subst hx
        rw [view_of_find_some hfind₂, view_of_find_some hf]
      · have : poolFind pool₂ x = (poolFind s.buffer_pool x).map
            (fun p => if p.block_id == b then { p with last_access_time := s.clock } else p) := by
          rw [hpool₂]
          unfold BufferManager.touchPool
          exact poolFind_map_pres s.buffer_pool
            (fun p => if p.block_id == b then { p with last_access_time := s.clock } else p)
            (fun p => by by_cases hc : p.block_id = b <;> simp [hc]) x
        cases hg : poolFind s.buffer_pool x with
        | some q =>
          rw [hg] at this
          simp only [Option.map_some'] at this
          have hqid := (poolFind_mem _ _ _ hg).2
          have hqb : (q.block_id == b) = false := by
            rw [hqid]
            exact beq_eq_false_iff_ne.mpr hx
          rw [hqb] at this
          simp only [Bool.false_eq_true, if_false] at this
          rw [view_of_find_some this, view_of_find_some hg]
        | none =>
          rw [hg] at this
          simp only [Option.map_none'] at this
          rw [view_of_find_none this, view_of_find_none hg]
    · exact ⟨_, hfind₂, by rw [hdata]⟩
  | none =>
    -- miss: the stats update does not affect any BufWF field
    have hWF₁ : BufWF { s with stats := s.stats.record_miss } :=
      ⟨hWF.nodup, hWF.refs, hWF.size_le, hWF.clean, hWF.len64, hWF.disk64, hWF.valid,
        hWF.times_lt, hWF.times_nodup⟩
    exact read_page_miss_spec { s with stats := s.stats.record_miss } b hWF₁ hb hcap hf

theorem updPool_mem (pool : List BufferPage) (g : BufferPage → BufferPage) (b : Nat)
    (q : BufferPage) (hq : q ∈ pool.map (fun p => if p.block_id == b then g p else p)) :
    ∃ p ∈ pool, q = p ∨ q = g p := by
  obtain ⟨p, hp, he⟩ := List.mem_map.mp hq
  by_cases hid : p.block_id = b
  · rw [if_pos (by simp [hid])] at he
    exact ⟨p, hp, .inr he.symm⟩
  · rw [if_neg (by simp [hid])] at he
    exact ⟨p, hp, .inl he.symm⟩

theorem updPool_id_of_not_found (pool : List BufferPage) (g : BufferPage → BufferPage)
    (b : Nat) (h : ∀ q ∈ pool, q.block_id ≠ b) :
    pool.map (fun p => if p.block_id == b then g p else p) = pool := by
  conv_rhs => rw [← List.map_id pool]
  apply List.map_congr_left
  intro p hp
  rw [if_neg (by simp [h p hp])]
  rfl

theorem updPool_times_nodup (pool : List BufferPage) (g : BufferPage → BufferPage) (b c : Nat)
    (hgt : ∀ p, (g p).last_access_time = c)
    (hlt : ∀ p ∈ pool, p.last_access_time < c)
    (hnd : (pool.map BufferPage.last_access_time).Nodup)
    (hid : (pool.map BufferPage.block_id).Nodup) :
    ((pool.map (fun p => if p.block_id == b then g p else p)).map
      BufferPage.last_access_time).Nodup := by
  induction pool with
  | nil => exact List.nodup_nil
  | cons p rest ih =>
    simp only [List.map_cons, List.nodup_cons] at hnd hid
    simp only [List.map_cons]
    by_cases hp : p.block_id = b
    · rw [if_pos (by simp [hp])]
      have hrest : rest.map (fun q => if q.block_id == b then g q else q) = rest :=
        updPool_id_of_not_found rest g b (fun q hq hqb => hid.1 (by
          rw [hp, ← hqb]
          exact List.mem_map_of_mem _ hq))
      rw [hrest]
      simp only [List.nodup_cons]
      refine ⟨?_, hnd.2⟩
      intro hcm
      obtain ⟨q, hq, he⟩ := List.mem_map.mp hcm
      have := hlt q (List.mem_cons_of_mem p hq)
      rw [hgt p] at he
      omega
    · rw [if_neg (by simp [hp])]
      have htail := ih (fun q hq => hlt q (List.mem_cons_of_mem p hq)) hnd.2 hid.2
      simp only [List.nodup_cons]
      refine ⟨?_, htail⟩
      intro hcm
      obtain ⟨q, hq, he⟩ := List.mem_map.mp hcm
      obtain ⟨q0, hq0, hcase⟩ := updPool_mem rest g b q hq
      rcases hcase with h0 | h0
      · subst h0
        exact hnd.1 (he ▸ List.mem_map_of_mem BufferPage.last_access_time hq0)
      · rw [h0, hgt q0] at he
        have := hlt p (List.mem_cons_self p rest)
        omega

theorem write_page_spec (s : BufferManager) (b : Nat) (d : Bytes) (hWF : BufWF s)
    (hb : b < SystemConfig.TOTAL_BLOCKS) (hcap : 0 < s.capacity) :
    ∃ s', s.write_page b d = .ok s' ∧ BufWF s' ∧
      (∀ x, s'.view x = if x = b then norm64 d else s.view x) ∧
      s'.capacity = s.capacity := by
  -- stage 1: the page is made resident (write-allocate)
  have hstage : ∃ s₁, ∃ p₁,
      (match poolFind s.buffer_pool b with
        | some _ => (pure s : Except PyErr BufferManager)
        | none => do
            let r ← s.read_page b
            pure r.2) = Except.ok s₁ ∧ BufWF s₁ ∧
      (∀ x, s₁.view x = s.view x) ∧ s₁.capacity = s.capacity ∧
      poolFind s₁.buffer_pool b = some p₁ := by
    cases hf : poolFind s.buffer_pool b with
    | some p => exact ⟨s, p, rfl, hWF, fun _ => rfl, rfl, hf⟩
    | none =>
      obtain ⟨s₁, hrun, hWF₁, hview₁, hcap₁, p, hp1, _⟩ := read_page_spec s b hWF hb hcap
      refine ⟨s₁, p, ?_, hWF₁, hview₁, hcap₁, hp1⟩
      rw [hrun]
      rfl
  obtain ⟨s₁, p₁, hrun₁, hWF₁, hview₁, hcap₁, hp₁⟩ := hstage
  -- stage 2: overwrite, mark dirty, touch
  set g : BufferPage → BufferPage :=
    fun p => { p with data := norm64 d, is_dirty := true, last_access_time := s₁.clock }
    with hg
  set pool₂ := s₁.buffer_pool.map (fun p => if p.block_id == b then g p else p) with hpool₂
  have hgi : ∀ p, (g p).block_id = p.block_id := fun p => by rw [hg]
  have hfind₂ : ∀ x, poolFind pool₂ x = (poolFind s₁.buffer_pool x).map
      (fun p => if p.block_id == b then g p else p) := by
    intro x
    rw [hpool₂]
    exact poolFind_map_pres s₁.buffer_pool _
      (fun p => by by_cases hc : p.block_id = b <;> simp [hc, hg]) x
  have hp₁id : p₁.block_id = b := (poolFind_mem _ _ _ hp₁).2
  have hfindb : poolFind pool₂ b = some (g p₁) := by
    rw [hfind₂ b, hp₁]
    simp [hp₁id]
  have hrun : s.write_page b d = .ok { s₁ with buffer_pool := pool₂, clock := s₁.clock + 1 } := by
    unfold BufferManager.write_page
    rw [hrun₁, exceptBind_ok]
    show (match poolFind s₁.buffer_pool b with
      | none => (Except.error PyErr.keyError : Except PyErr BufferManager)
      | some _ =>
        let dd := norm64 d
        Except.ok { s₁ with
          buffer_pool := s₁.buffer_pool.map (fun p : BufferPage =>
            if p.block_id == b then
              { p with data := dd, is_dirty := true, last_access_time := s₁.clock }
            else p)
          clock := s₁.clock + 1 }) = _
    rw [hp₁]
  refine ⟨_, hrun, ?_, ?_, hcap₁⟩
  · refine ⟨?_, ?_, ?_, ?_, ?_, ?_, ?_, ?_, ?_⟩
    · show (pool₂.map BufferPage.block_id).Nodup
      rw [hpool₂]
      have : (s₁.buffer_pool.map (fun p => if p.block_id == b then g p else p)).map
          BufferPage.block_id = s₁.buffer_pool.map BufferPage.block_id := by
        rw [List.map_map]
        apply List.map_congr_left
        intro p _
        by_cases hc : p.block_id = b <;> simp [hc, hg]
      rw [this]
      exact hWF₁.nodup
    · intro q hq
      obtain ⟨p, hp, hc⟩ := updPool_mem s₁.buffer_pool g b q hq
      rcases hc with hc | hc <;> rw [hc]
      · exact hWF₁.refs p hp
      · rw [hg]
        exact hWF₁.refs p hp
    · show pool₂.length ≤ s₁.capacity
      rw [hpool₂, List.length_map]
      exact hWF₁.size_le
    · intro q hq hcl
      obtain ⟨p, hp, hc⟩ := updPool_mem s₁.buffer_pool g b q hq
      rcases hc with hc | hc
      · rw [hc] at hcl ⊢
        exact hWF₁.clean p hp hcl
      · rw [hc, hg] at hcl
        simp at hcl
    · intro q hq
      obtain ⟨p, hp, hc⟩ := updPool_mem s₁.buffer_pool g b q hq
      rcases hc with hc | hc <;> rw [hc]
      · exact hWF₁.len64 p hp
      · rw [hg]
        exact norm64_length d
    · exact hWF₁.disk64
    · intro q hq
      obtain ⟨p, hp, hc⟩ := updPool_mem s₁.buffer_pool g b q hq
      rcases hc with hc | hc <;> rw [hc]
      · exact hWF₁.valid p hp
      · rw [hg]
        exact hWF₁.valid p hp
    · intro q hq
      obtain ⟨p, hp, hc⟩ := updPool_mem s₁.buffer_pool g b q hq
      rcases hc with hc | hc <;> rw [hc]
      · exact Nat.lt_succ_of_lt (hWF₁.times_lt p hp)
      · rw [hg]
        exact Nat.lt_succ_self _
    · exact updPool_times_nodup s₁.buffer_pool g b s₁.clock (fun p => by rw [hg])
        hWF₁.times_lt hWF₁.times_nodup hWF₁.nodup
  · intro x
    by_cases hx : x = b
    · subst hx
      rw [if_pos rfl, view_of_find_some hfindb, hg]
    · rw [if_neg hx, ← hview₁ x]
      cases hgx : poolFind s₁.buffer_pool x with
      | some q =>
        have hqid := (poolFind_mem _ _ _ hgx).2
        have : poolFind pool₂ x = some q := by
          rw [hfind₂ x, hgx]
          simp only [Option.map_some']
          rw [if_neg (by simp [hqid, hx])]
        rw [view_of_find_some this, view_of_find_some hgx]
      | none =>
        have : poolFind pool₂ x = none := by
          rw [hfind₂ x, hgx]
          rfl
        rw [view_of_find_none this, view_of_find_none hgx]

theorem flushPages_spec (disk : DiskManager) (pool : List BufferPage)
    (hval : ∀ p ∈ pool, p.block_id < SystemConfig.TOTAL_BLOCKS)
    (hnd : (pool.map BufferPage.block_id).Nodup) :
    ∃ r, BufferManager.flushPages disk pool = .ok r ∧
      r.2 = pool.map (fun p => { p with is_dirty := false }) ∧
      (∀ x, (∀ p ∈ pool, p.block_id = x → p.is_dirty = false) →
        r.1.blocks x = disk.blocks x) ∧
      (∀ p ∈ pool, p.is_dirty = true → r.1.blocks p.block_id = norm64 p.data) := by
  induction pool generalizing disk with
  | nil => exact ⟨(disk, []), rfl, rfl, fun _ _ => rfl, by simp⟩
  | cons p rest ih =>
    simp only [List.map_cons, List.nodup_cons] at hnd
    have hvrest : ∀ q ∈ rest, q.block_id < SystemConfig.TOTAL_BLOCKS :=
      fun q hq => hval q (List.mem_cons_of_mem p hq)
    have hrestne : ∀ q ∈ rest, q.block_id ≠ p.block_id := fun q hq he =>
      hnd.1 (he ▸ List.mem_map_of_mem BufferPage.block_id hq)
    cases hd : p.is_dirty with
    | true =>
      set disk₁ : DiskManager :=
        ⟨fun x => if x = p.block_id then norm64 p.data else disk.blocks x⟩ with hdisk₁
      have hwr : disk.write_block p.block_id p.data = .ok disk₁ := by
        unfold DiskManager.write_block
        rw [if_pos (hval p (List.mem_cons_self p rest))]
      obtain ⟨r, hr, hr2, hrsame, hrdirty⟩ := ih disk₁ hvrest hnd.2
      refine ⟨(r.1, { p with is_dirty := false } :: r.2), ?_, ?_, ?_, ?_⟩
      · unfold BufferManager.flushPages
        rw [hd]
        simp only [if_true, hwr, exceptBind_ok, hr, exceptBind_ok]
      · simp only [List.map_cons]
        rw [hr2]
      · intro x hx
        have := hx p (List.mem_cons_self p rest)
        by_cases hxp : x = p.block_id
        · rw [hxp] at this ⊢
          have : p.is_dirty = false := this rfl
          rw [hd] at this
          cases this
        · rw [hrsame x (fun q hq hqx => hx q (List.mem_cons_of_mem p hq) hqx), hdisk₁]
          show (if x = p.block_id then norm64 p.data else disk.blocks x) = disk.blocks x
          rw [if_neg hxp]
      · intro q hq hqd
        rcases List.mem_cons.mp hq with h | h
        · subst h
          rw [hrsame q.block_id (fun q2 hq2 hq2x => absurd hq2x (hrestne q2 hq2)), hdisk₁]
          show (if q.block_id = q.block_id then norm64 q.data else disk.blocks q.block_id) =
            norm64 q.data
          rw [if_pos rfl]
        · exact hrdirty q h hqd
    | false =>
      obtain ⟨r, hr, hr2, hrsame, hrdirty⟩ := ih disk hvrest hnd.2
      refine ⟨(r.1, p :: r.2), ?_, ?_, ?_, ?_⟩
      · unfold BufferManager.flushPages
        rw [hd]
        simp only [Bool.false_eq_true, if_false, hr, exceptBind_ok]
      · simp only [List.map_cons]
        rw [hr2]
        congr 1
        cases p with
        | mk bid dt dr la ow rc =>
          simp only at hd
          rw [hd]
      · intro x hx
        exact hrsame x (fun q hq hqx => hx q (List.mem_cons_of_mem p hq) hqx)
      · intro q hq hqd
        rcases List.mem_cons.mp hq with h | h
        · subst h
          rw [hqd] at hd
          cases hd
        · exact hrdirty q h hqd

theorem flush_all_spec (s : BufferManager) (hWF : BufWF s) :
    ∃ s', s.flush_all = .ok s' ∧ BufWF s' ∧ (∀ x, s'.view x = s.view x) ∧
      s'.capacity = s.capacity ∧ s'.clock = s.clock ∧ s'.stats = s.stats ∧
      s'.buffer_pool = s.buffer_pool.map (fun p => { p with is_dirty := false }) ∧
      (∀ x, x < SystemConfig.TOTAL_BLOCKS → s'.disk.blocks x = s.view x) := by
  obtain ⟨r, hr, hr2, hrsame, hrdirty⟩ := flushPages_spec s.disk s.buffer_pool hWF.valid hWF.nodup
  have hpool' : r.2 = s.buffer_pool.map (fun p => { p with is_dirty := false }) := hr2
  have hfind' : ∀ x, poolFind r.2 x = (poolFind s.buffer_pool x).map
      (fun p => { p with is_dirty := false }) := by
    intro x
    rw [hpool']
    exact poolFind_map_pres s.buffer_pool (fun p => { p with is_dirty := false })
      (fun p => rfl) x
  have hdiskview : ∀ x, x < SystemConfig.TOTAL_BLOCKS → r.1.blocks x = s.view x := by
    intro x hx
    cases hg : poolFind s.buffer_pool x with
    | some q =>
      have hqmem := (poolFind_mem _ _ _ hg).1
      have hqid := (poolFind_mem _ _ _ hg).2
      cases hqd : q.is_dirty with
      | true =>
        rw [view_of_find_some hg, ← hqid, hrdirty q hqmem hqd]
        exact norm64_of_length _ (hWF.len64 q hqmem)
      | false =>
        rw [view_of_find_some hg]
        have hsame : r.1.blocks x = s.disk.blocks x := by
          apply hrsame
          intro q2 hq2 hq2x
          have : q2 = q := by
            have := poolFind_of_mem_nodup s.buffer_pool q2 hq2 hWF.nodup
            rw [hq2x, hg] at this
            exact Option.some_injective _ this.symm
          rw [this]
          exact hqd
        rw [hsame, ← hqid]
        exact (hWF.clean q hqmem hqd).symm
    | none =>
      rw [view_of_find_none hg]
      apply hrsame
      intro q hq hqx
      exact absurd hqx ((poolFind_none_iff _ _).mp hg q hq)
  have hrun : s.flush_all = .ok { s with disk := r.1, buffer_pool := r.2 } := by
    unfold BufferManager.flush_all
    rw [hr, exceptBind_ok]
  refine ⟨_, hrun, ?_, ?_, rfl, rfl, rfl, hpool', hdiskview⟩
  · refine ⟨?_, ?_, ?_, ?_, ?_, ?_, ?_, ?_, ?_⟩
    · show (r.2.map BufferPage.block_id).Nodup
      rw [hpool', List.map_map]
      exact hWF.nodup
    · intro q hq
      rw [hpool'] at hq
      obtain ⟨p, hp, he⟩ := List.mem_map.mp hq
      rw [← he]
      exact hWF.refs p hp
    · show r.2.length ≤ s.capacity
      rw [hpool', List.length_map]
      exact hWF.size_le
    · intro q hq _
      rw [hpool'] at hq
      obtain ⟨p, hp, he⟩ := List.mem_map.mp hq
      rw [← he]
      show p.data = r.1.blocks p.block_id
      rw [hdiskview p.block_id (hWF.valid p hp),
        view_of_find_some (poolFind_of_mem_nodup s.buffer_pool p hp hWF.nodup)]
    · intro q hq
      rw [hpool'] at hq
      obtain ⟨p, hp, he⟩ := List.mem_map.mp hq
      rw [← he]
      exact hWF.len64 p hp
    · intro x hx
      rw [hdiskview x hx]
      cases hg : poolFind s.buffer_pool x with
      | some q =>
        rw [view_of_find_some hg]
        exact hWF.len64 q (poolFind_mem _ _ _ hg).1
      | none =>
        rw [view_of_find_none hg]
        exact hWF.disk64 x hx
    · intro q hq
      rw [hpool'] at hq
      obtain ⟨p, hp, he⟩ := List.mem_map.mp hq
      rw [← he]
      exact hWF.valid p hp
    · intro q hq
      rw [hpool'] at hq
      obtain ⟨p, hp, he⟩ := List.mem_map.mp hq
      rw [← he]
      exact hWF.times_lt p hp
    · show (r.2.map BufferPage.last_access_time).Nodup
      rw [hpool', List.map_map]
      exact hWF.times_nodup
  · intro x
    cases hg : poolFind s.buffer_pool x with
    | some q =>
      have : poolFind r.2 x = some { q with is_dirty := false } := by
        rw [hfind' x, hg]
        rfl
      rw [view_of_find_some this, view_of_find_some hg]
    | none =>
      have : poolFind r.2 x = none := by
        rw [hfind' x, hg]
        rfl
      rw [view_of_find_none this, view_of_find_none hg]
      show r.1.blocks x = s.disk.blocks x
      apply hrsame
      intro q hq hqx
      exact absurd hqx ((poolFind_none_iff _ _).mp hg q hq)

theorem evict_lru_run (s : BufferManager) (m : BufferPage)
    (hm : BufferManager.argminTime (s.buffer_pool.filter (fun p => p.ref_count == 0)) = some m)
    (hmid : m.block_id < SystemConfig.TOTAL_BLOCKS) :
    s._evict_lru = .ok
      { s with
        disk := ⟨fun x =>
          if m.is_dirty = true ∧ x = m.block_id then norm64 m.data else s.disk.blocks x⟩
        stats := s.stats.record_eviction m.is_dirty
        buffer_pool := s.buffer_pool.filter (fun p => ¬(p.block_id == m.block_id)) } := by
  unfold BufferManager._evict_lru
  simp only [hm]
  cases hd : m.is_dirty with
  | true =>
    simp only [hd, if_true, DiskManager.write_block, if_pos hmid, exceptBind_ok, true_and]
  | false =>
    simp only [hd, Bool.false_eq_true, if_false, exceptPure_def, exceptBind_ok, false_and]

theorem installPage_run (s : BufferManager) (b : Nat) (hb : b < SystemConfig.TOTAL_BLOCKS) :
    s.installPage b = .ok (s.disk.blocks b,
      { s with
        buffer_pool := s.buffer_pool ++
          [{ block_id := b, data := s.disk.blocks b, is_dirty := false
             last_access_time := s.clock, owner := ownerSystem, ref_count := 0 }]
        clock := s.clock + 1 }) := by
  unfold BufferManager.installPage
  simp only [DiskManager.read_block, if_pos hb, exceptBind_ok]

theorem invalidate_spec (s : BufferManager) (b : Nat) (hWF : BufWF s) :
    ∃ s', s.invalidate b = .ok s' ∧ BufWF s' ∧ (∀ x, s'.view x = s.view x) ∧
      s'.capacity = s.capacity ∧ s'.clock = s.clock ∧ s'.stats = s.stats ∧
      poolFind s'.buffer_pool b = none := by
  unfold BufferManager.invalidate
  cases hf : poolFind s.buffer_pool b with
  | none => exact ⟨s, rfl, hWF, fun _ => rfl, rfl, rfl, rfl, hf⟩
  | some page =>
    have hpmem := (poolFind_mem _ _ _ hf).1
    have hpid := (poolFind_mem _ _ _ hf).2
    have hpb : page.block_id < SystemConfig.TOTAL_BLOCKS := hWF.valid page hpmem
    set pool' := s.buffer_pool.filter (fun p => ¬(p.block_id == b)) with hpool'
    set disk' : DiskManager :=
      ⟨fun x => if page.is_dirty = true ∧ x = page.block_id then norm64 page.data
        else s.disk.blocks x⟩ with hdisk'
    have hsub : List.Sublist pool' s.buffer_pool := List.filter_sublist _
    have hmemf : ∀ p ∈ pool', p ∈ s.buffer_pool := fun p hp => (List.mem_filter.mp hp).1
    have hidf : ∀ p ∈ pool', p.block_id ≠ b := fun p hp => by
      have h2 := (List.mem_filter.mp hp).2
      simpa using h2
    have hrun : (do
        let disk2 ←
          if page.is_dirty then s.disk.write_block page.block_id page.data
          else pure s.disk
        Except.ok { s with disk := disk2, buffer_pool := pool' }) =
        Except.ok { s with disk := disk', buffer_pool := pool' } := by
      cases hd : page.is_dirty with
      | true =>
        simp only [if_true, DiskManager.write_block, if_pos hpb, exceptBind_ok]
        have : (⟨fun x => if x = page.block_id then norm64 page.data else s.disk.blocks x⟩ :
            DiskManager) = disk' := by
          rw [hdisk']
          congr 1
          funext x
          by_cases hx : x = page.block_id <;> simp [hx, hd]
        rw [this]
      | false =>
        simp only [Bool.false_eq_true, if_false, exceptPure_def, exceptBind_ok]
        have : s.disk = disk' := by
          rw [hdisk']
          cases s.disk with
          | mk blocks =>
            congr 1
            funext x
            simp [hd]
        rw [← this]
    have hfil : ∀ x, poolFind pool' x = if x = b then none else poolFind s.buffer_pool x := by
      intro x
      rw [hpool']
      exact poolFind_filter_ne s.buffer_pool b x
    refine ⟨{ s with disk := disk', buffer_pool := pool' }, hrun, ?_, ?_, rfl, rfl, rfl, ?_⟩
    · refine ⟨?_, ?_, ?_, ?_, ?_, ?_, ?_, ?_, ?_⟩
      · exact hWF.nodup.sublist (hsub.map BufferPage.block_id)
      · exact fun p hp => hWF.refs p (hmemf p hp)
      · show pool'.length ≤ s.capacity
        have := hsub.length_le
        have := hWF.size_le
        omega
      · intro p hp hcl
        have hidne : p.block_id ≠ page.block_id := by
          have := hidf p hp
          omega
        have := hWF.clean p (hmemf p hp) hcl
        show p.data = disk'.blocks p.block_id
        rw [hdisk']
        show p.data = if page.is_dirty = true ∧ p.block_id = page.block_id then norm64 page.data
          else s.disk.blocks p.block_id
        rw [if_neg (fun hc => hidne hc.2)]
        exact this
      · exact fun p hp => hWF.len64 p (hmemf p hp)
      · intro x hx
        show (disk'.blocks x).length = 64
        rw [hdisk']
        show (if page.is_dirty = true ∧ x = page.block_id then norm64 page.data
          else s.disk.blocks x).length = 64
        by_cases hcase : page.is_dirty = true ∧ x = page.block_id
        · rw [if_pos hcase, norm64_length]
        · rw [if_neg hcase]
          exact hWF.disk64 x hx
      · exact fun p hp => hWF.valid p (hmemf p hp)
      · exact fun p hp => hWF.times_lt p (hmemf p hp)
      · exact hWF.times_nodup.sublist (hsub.map BufferPage.last_access_time)
    · intro x
      by_cases hx : x = b
      · have hfx : poolFind pool' x = none := by
          rw [hfil x, if_pos hx]
        have e1 : BufferManager.view { s with disk := disk', buffer_pool := pool' } x =
            disk'.blocks x := view_of_find_none hfx
        have e2 : s.view x = page.data := view_of_find_some (hx ▸ hf)
        rw [e1, e2, hdisk']
        show (if page.is_dirty = true ∧ x = page.block_id then norm64 page.data
          else s.disk.blocks x) = page.data
        cases hd : page.is_dirty with
        | true =>
          rw [if_pos ⟨rfl, by omega⟩]
          exact norm64_of_length _ (hWF.len64 page hpmem)
        | false =>
          rw [if_neg (by simp), hx, ← hpid]
          exact (hWF.clean page hpmem hd).symm
      · have hfx : poolFind pool' x = poolFind s.buffer_pool x := by
          rw [hfil x, if_neg hx]
        cases hg : poolFind s.buffer_pool x with
        | some q =>
          have e1 : BufferManager.view { s with disk := disk', buffer_pool := pool' } x =
              q.data := view_of_find_some (hfx.trans hg)
          rw [e1, view_of_find_some hg]
        | none =>
          have e1 : BufferManager.view { s with disk := disk', buffer_pool := pool' } x =
              disk'.blocks x := view_of_find_none (hfx.trans hg)
          rw [e1, view_of_find_none hg, hdisk']
          show (if page.is_dirty = true ∧ x = page.block_id then norm64 page.data
            else s.disk.blocks x) = s.disk.blocks x
          rw [if_neg (fun hc => hx (by omega : x = b))]
    · rw [hfil b, if_pos rfl]

/-! ## C2 — LRU eviction on a full pool -/

/-- C2: when `read_page(b)` misses with the pool at capacity, the page
removed is a resident page with `ref_count = 0` and minimal
`last_access_time` among the unpinned pages; a dirty victim is first
written back to the device and `writeback_count` is incremented;
`evict_count` is incremented; and if every resident page is pinned the
operation fails with `PoolExhausted` (the source's `RuntimeError`). -/
theorem C2_lru_eviction (s : BufferManager) (b : Nat)
    (hmiss : poolFind s.buffer_pool b = none)
    (hfull : s.capacity ≤ s.buffer_pool.length)
    (hb : b < SystemConfig.TOTAL_BLOCKS)
    (hids : ∀ p ∈ s.buffer_pool, p.block_id < SystemConfig.TOTAL_BLOCKS)
    (hlens : ∀ p ∈ s.buffer_pool, p.data.length = 64) :
    (s.buffer_pool.filter (fun p => p.ref_count == 0) = [] →
      s.read_page b = .error .runtimeError) ∧
    (s.buffer_pool.filter (fun p => p.ref_count == 0) ≠ [] →
      ∃ victim v s',
        victim ∈ s.buffer_pool ∧ victim.ref_count = 0 ∧
        (∀ q ∈ s.buffer_pool, q.ref_count = 0 →
          victim.last_access_time ≤ q.last_access_time) ∧
        s.read_page b = .ok (v, s') ∧
        (∀ p ∈ s'.buffer_pool, p.block_id ≠ victim.block_id) ∧
        s'.stats.evict_count = s.stats.evict_count + 1 ∧
        s'.stats.writeback_count =
          s.stats.writeback_count + (if victim.is_dirty then 1 else 0) ∧
        (victim.is_dirty = true → s'.disk.blocks victim.block_id = victim.data) ∧
        (victim.is_dirty = false → s'.disk = s.disk)) := by
  have hrp : s.read_page b =
      BufferManager.read_page_miss { s with stats := s.stats.record_miss } b := by
    unfold BufferManager.read_page
    rw [hmiss]
  have hrm : BufferManager.read_page_miss { s with stats := s.stats.record_miss } b =
      (BufferManager._evict_lru { s with stats := s.stats.record_miss } >>= fun s₂ =>
        s₂.installPage b) := by
    unfold BufferManager.read_page_miss
    rw [if_pos (show ({ s with stats := s.stats.record_miss } : BufferManager).capacity ≤
      ({ s with stats := s.stats.record_miss } : BufferManager).buffer_pool.length from hfull)]
  have hnotin : ∀ p ∈ s.buffer_pool, p.block_id ≠ b := (poolFind_none_iff _ _).mp hmiss
  constructor
  · intro hcand
    rw [hrp, hrm]
    unfold BufferManager._evict_lru
    have hcand' : ({ s with stats := s.stats.record_miss } : BufferManager).buffer_pool.filter
        (fun p => p.ref_count == 0) = [] := hcand
    simp only [hcand', BufferManager.argminTime, List.foldl, exceptBind_error]
  · intro hcand
    obtain ⟨m, hm, hmemf, hminf⟩ := argminTime_spec _ hcand
    have hmmem : m ∈ s.buffer_pool := (List.mem_filter.mp hmemf).1
    have hmref : m.ref_count = 0 := by
      have := (List.mem_filter.mp hmemf).2
      simpa using this
    have hmin : ∀ q ∈ s.buffer_pool, q.ref_count = 0 →
        m.last_access_time ≤ q.last_access_time := by
      intro q hq hq0
      exact hminf q (List.mem_filter.mpr ⟨hq, by simp [hq0]⟩)
    have hmid : m.block_id < SystemConfig.TOTAL_BLOCKS := hids m hmmem
    have hmb : m.block_id ≠ b := hnotin m hmmem
    have hevict := evict_lru_run { s with stats := s.stats.record_miss } m hm hmid
    set s₂ : BufferManager :=
      { disk := ⟨fun x =>
          if m.is_dirty = true ∧ x = m.block_id then norm64 m.data else s.disk.blocks x⟩
        capacity := s.capacity
        buffer_pool := s.buffer_pool.filter (fun p => ¬(p.block_id == m.block_id))
        stats := (s.stats.record_miss).record_eviction m.is_dirty
        clock := s.clock } with hs₂
    have hevict' : BufferManager._evict_lru { s with stats := s.stats.record_miss } =
        .ok s₂ := hevict
    refine ⟨m, s₂.disk.blocks b,
      { s₂ with
        buffer_pool := s₂.buffer_pool ++
          [{ block_id := b, data := s₂.disk.blocks b, is_dirty := false
             last_access_time := s₂.clock, owner := ownerSystem, ref_count := 0 }]
        clock := s₂.clock + 1 },
      hmmem, hmref, hmin, ?_, ?_, ?_, ?_, ?_, ?_⟩
    · rw [hrp, hrm, hevict', exceptBind_ok]
      exact installPage_run s₂ b hb
    · intro p hp
      rcases List.mem_append.mp hp with h | h
      · rw [hs₂] at h
        have h2 := (List.mem_filter.mp h).2
        simpa using h2
      · simp only [List.mem_singleton] at h
        rw [h]
        show b ≠ m.block_id
        omega
    · show ((s.stats.record_miss).record_eviction m.is_dirty).evict_count =
        s.stats.evict_count + 1
      simp [BufferStatistics.record_miss, BufferStatistics.record_eviction]
    · show ((s.stats.record_miss).record_eviction m.is_dirty).writeback_count =
        s.stats.writeback_count + (if m.is_dirty then 1 else 0)
      simp [BufferStatistics.record_miss, BufferStatistics.record_eviction]
    · intro hd
      show s₂.disk.blocks m.block_id = m.data
      rw [hs₂]
      show (if m.is_dirty = true ∧ m.block_id = m.block_id then norm64 m.data
        else s.disk.blocks m.block_id) = m.data
      rw [if_pos ⟨hd, rfl⟩]
      exact norm64_of_length _ (hlens m hmmem)
    · intro hd
      show s₂.disk = s.disk
      rw [hs₂]
      show (⟨fun x => if m.is_dirty = true ∧ x = m.block_id then norm64 m.data
        else s.disk.blocks x⟩ : DiskManager) = s.disk
      cases hds : s.disk with
      | mk blocks =>
        congr 1
        funext x
        simp [hd, hds]

/-- Witness for C2 at a concrete two-page pool (block 10 dirty with the
older stamp, block 20 clean): every hypothesis is discharged by
computation. -/
theorem C2_lru_eviction_witness :
    (bufC2.buffer_pool.filter (fun p => p.ref_count == 0) = [] →
      bufC2.read_page 30 = .error .runtimeError) ∧
    (bufC2.buffer_pool.filter (fun p => p.ref_count == 0) ≠ [] →
      ∃ victim v s',
        victim ∈ bufC2.buffer_pool ∧ victim.ref_count = 0 ∧
        (∀ q ∈ bufC2.buffer_pool, q.ref_count = 0 →
          victim.last_access_time ≤ q.last_access_time) ∧
        bufC2.read_page 30 = .ok (v, s') ∧
        (∀ p ∈ s'.buffer_pool, p.block_id ≠ victim.block_id) ∧
        s'.stats.evict_count = bufC2.stats.evict_count + 1 ∧
        s'.stats.writeback_count =
          bufC2.stats.writeback_count + (if victim.is_dirty then 1 else 0) ∧
        (victim.is_dirty = true → s'.disk.blocks victim.block_id = victim.data) ∧
        (victim.is_dirty = false → s'.disk = bufC2.disk)) :=
  C2_lru_eviction bufC2 30 (by decide) (by decide) (by decide)
    (by decide) (by simp [bufC2, zeros])

/-! ## FAT-layer lemmas -/

theorem epb_eq : FATManager.entries_per_block = 16 := rfl

theorem total_entries_eq : FATManager.total_entries = 1024 := rfl

theorem TOTAL_eq : SystemConfig.TOTAL_BLOCKS = 1024 := rfl

theorem FAT_START_eq : SystemConfig.FAT_START = 1 := rfl

theorem DATA_START_eq : SystemConfig.DATA_START = 97 := rfl

theorem DIR_START_eq : SystemConfig.DIR_START = 65 := rfl

theorem BLOCK_SIZE_eq : SystemConfig.BLOCK_SIZE = 64 := rfl

theorem FAT_FREE_eq : SystemConfig.FAT_FREE = 4294967295 := rfl

theorem FAT_EOF_eq : SystemConfig.FAT_EOF = 4294967294 := rfl

theorem FAT_BLOCKS_eq : SystemConfig.FAT_BLOCKS = 64 := rfl

theorem DIR_BLOCKS_eq : SystemConfig.DIR_BLOCKS = 32 := rfl

theorem max_hops_eq : FATManager.max_hops = 2048 := rfl

theorem view_len64 (s : BufferManager) (hWF : BufWF s) (x : Nat)
    (hx : x < SystemConfig.TOTAL_BLOCKS) : (s.view x).length = 64 := by
  cases hf : poolFind s.buffer_pool x with
  | some p =>
    rw [view_of_find_some hf]
    exact hWF.len64 p (poolFind_mem _ _ _ hf).1
  | none =>
    rw [view_of_find_none hf]
    exact hWF.disk64 x hx

theorem fatBlock_lt (i : Nat) (hi : i < FATManager.total_entries) :
    SystemConfig.FAT_START + i / FATManager.entries_per_block < SystemConfig.TOTAL_BLOCKS := by
  rw [total_entries_eq] at hi
  rw [FAT_START_eq, TOTAL_eq, epb_eq]
  omega

theorem fatOffset_le (i : Nat) :
    (i % FATManager.entries_per_block) * 4 + 4 ≤ 64 := by
  rw [epb_eq]
  have := Nat.mod_lt i (show 0 < 16 by omega)
  omega

/-- Congruence: `fatv` and `freeList` only look at the store. -/
theorem fatv_congr {v v' : Store} (h : ∀ x, v' x = v x) (i : Nat) : fatv v' i = fatv v i := by
  unfold fatv
  rw [h]

theorem freeList_congr {v v' : Store} (h : ∀ x, v' x = v x) : freeList v' = freeList v := by
  unfold freeList
  congr 1
  funext i
  rw [fatv_congr h]

theorem extract_splice_self4 (l : Bytes) (off v : Nat) (h : off + 4 ≤ l.length) :
    extract (splice l off (natToBytesLE 4 v)) off 4 = natToBytesLE 4 v := by
  have h' : off + (natToBytesLE 4 v).length ≤ l.length := by
    rw [natToBytesLE_length]; exact h
  have := extract_splice_self l (natToBytesLE 4 v) off h'
  rwa [natToBytesLE_length] at this

/-! ## The `owner=` keyword bug: crash characterisations

Every FAT-manager, directory-manager and facade buffer access passes
`owner=` to `read_page`/`write_page`, whose signatures accept no such
keyword: each call raises `TypeError` before touching the buffer.  The
lemmas below characterise what each operation therefore actually does. -/

theorem read_entry_crash (s : FileSystem) (i : Nat) (h : i < FATManager.total_entries) :
    FATManager._read_entry s i = .error .typeError := by
  unfold FATManager._read_entry
  rw [if_pos h]
  rfl

theorem write_entry_crash (s : FileSystem) (i v : Nat) (h : i < FATManager.total_entries) :
    FATManager._write_entry s i v = .error .typeError := by
  unfold FATManager._write_entry
  rw [if_pos h]
  rfl

theorem write_entry_oob (s : FileSystem) (i v : Nat) (h : ¬ i < FATManager.total_entries) :
    FATManager._write_entry s i v = .error .valueError := by
  unfold FATManager._write_entry
  rw [if_neg h]

/-- Any lookup in the root directory crashes at the first block read of
`readEntriesLoop` (the root's block list `DIR_START..DIR_START+DIR_BLOCKS`
is never empty). -/
theorem find_in_dir_root_crash (s : FileSystem) (name : Str) :
    DirectoryManager._find_in_dir s none name = .error .typeError := rfl

/-- `resolve_path` on any path with at least one component crashes with
`TypeError`: the walk's first directory read passes `owner="DIR"`. -/
theorem resolve_path_crash (s : FileSystem) (path : Str)
    (h : DirectoryManager.splitPath path ≠ []) :
    DirectoryManager.resolve_path s path = .error .typeError := by
  have h1 : ¬(path = [] ∨ path = [47]) := by
    rintro (rfl | rfl) <;> exact h rfl
  unfold DirectoryManager.resolve_path
  rw [if_neg h1]
  cases hp : (DirectoryManager.splitPath path).getLast? with
  | none => exact absurd (List.getLast?_eq_none_iff.mp hp) h
  | some target =>
    simp only [hp]
    cases hd : (DirectoryManager.splitPath path).dropLast with
    | nil => rfl
    | cons a as => rfl

/-- `resolve_path` on a componentless path (`""`, `"/"`, `"//"`, …)
returns `(None, None)` without touching the buffer. -/
theorem resolve_path_empty (s : FileSystem) (path : Str)
    (h : DirectoryManager.splitPath path = []) :
    DirectoryManager.resolve_path s path = .ok ((none, none), s) := by
  unfold DirectoryManager.resolve_path
  by_cases h1 : path = [] ∨ path = [47]
  · rw [if_pos h1]
  · rw [if_neg h1]
    simp only [h]
    rfl

/-! ## C1 — the create/read round trip -/

/-- C1: the round trip can never be exercised: on a filesystem with a free
block already cached, `create_file` raises `TypeError` at its first buffer
access (the directory lookup of `resolve_path` passes `owner="DIR"`), and
`read_file` and `write_file` crash the same way, so no successful
`create_file`/`write_file` exists for `read_file` to follow. -/
theorem C1_roundtrip_broken :
    errOf (FileSystem.create_file sC1 strSlashASpace [1]) = some .typeError ∧
    errOf (FileSystem.read_file sC1 strSlashASpace) = some .typeError ∧
    errOf (FileSystem.write_file sC1 strSlashASpace [1]) = some .typeError :=
  ⟨rfl, rfl, rfl⟩

/-! ## C3 — flush-backed persistence of `write_file` -/

/-- C3: `write_file` never reaches its flushing tail: on a filesystem
whose root holds the file `/f`, `write_file("/f", …)` raises `TypeError`
already inside `resolve_path`, so no call ever returns successfully with
its bytes persisted. -/
theorem C3_write_file_crashes :
    errOf (FileSystem.write_file sC3 strSlashF [1, 2, 3]) = some .typeError := rfl

/-! ## C4 — block allocation -/

/-- C4: `allocate_block` never allocates: with no free-block cache the
rebuild scan crashes at its first `_read_entry` (`TypeError`); with an
empty cache it returns `-1`; with a populated cache it pops the head and
crashes in `_write_entry` (`TypeError` for an in-range head, the guard's
`ValueError` otherwise).  No FAT entry is ever set to `EOF`. -/
theorem C4_allocate_block_crashes (s : FileSystem) :
    FATManager.allocate_block s =
      match s.free_cache with
      | none => .error .typeError
      | some [] => .ok (-1, s)
      | some (b :: _) =>
          if b < FATManager.total_entries then .error .typeError else .error .valueError := by
  unfold FATManager.allocate_block
  cases hc : s.free_cache with
  | none => rfl
  | some l =>
    cases l with
    | nil =>
      show FATManager.allocFromCache s = .ok (-1, s)
      unfold FATManager.allocFromCache
      rw [hc]
    | cons b rest =>
      show FATManager.allocFromCache s =
        if b < FATManager.total_entries then .error .typeError else .error .valueError
      unfold FATManager.allocFromCache
      rw [hc]
      simp only []
      by_cases hb : b < FATManager.total_entries
      · rw [if_pos hb, write_entry_crash _ _ _ hb]
        rfl
      · rw [if_neg hb, write_entry_oob _ _ _ hb]
        rfl

/-! ## C5 — chain walking -/

/-- C5: `get_file_blocks` never walks a chain: it returns `[]` for `-1`,
raises the guard's `ValueError` out of range, and for every in-range
start raises `TypeError` at the loop's first `_read_entry` — so no input
ever yields the spec's chain prefix. -/
theorem C5_get_file_blocks_crashes (s : FileSystem) (st : Int) :
    FATManager.get_file_blocks s st =
      if st = -1 then .ok ([], s)
      else if st < 0 ∨ (FATManager.total_entries : Int) ≤ st then .error .valueError
      else .error .typeError := by
  unfold FATManager.get_file_blocks
  by_cases h1 : st = -1
  · rw [if_pos h1, if_pos h1]
  · rw [if_neg h1, if_neg h1]
    by_cases h2 : st < 0 ∨ (FATManager.total_entries : Int) ≤ st
    · rw [if_pos h2, if_pos h2]
    · rw [if_neg h2, if_neg h2]
      have hlt : st.toNat < 1024 := by
        rw [total_entries_eq] at h2
        omega
      unfold FATManager.gfbLoop
      rw [Nat.sub_zero]
      rw [FATManager.gfbGo]
      simp only []
      have hfree : ¬(st.toNat = SystemConfig.FAT_FREE ∨ st.toNat = SystemConfig.FAT_EOF) := by
        rw [FAT_FREE_eq, FAT_EOF_eq]
        omega
      rw [if_neg hfree]
      have h4 : ¬ FATManager.total_entries ≤ st.toNat := by
        rw [total_entries_eq]
        omega
      rw [if_neg h4]
      rw [if_neg (List.not_mem_nil st.toNat)]
      have h5 : ¬(FATManager.total_entries < (([] : List Nat) ++ [st.toNat]).length ∨
          FATManager.max_hops < 0) := by
        rw [total_entries_eq, max_hops_eq]
        simp
      rw [if_neg h5]
      have hc : st.toNat < FATManager.total_entries := by
        rw [total_entries_eq]
        omega
      rw [read_entry_crash s st.toNat hc]
      rfl

/-! ## C6 — freeing blocks -/

/-- C6: `free_block` never frees: `-1`, indices below 2 and indices at or
above `total_entries` are ignored as specified, but every remaining index
— including every valid non-reserved data block — crashes with
`TypeError` in `_write_entry` instead of setting the entry to `FREE`
(and the reserved indices 2..96 are not ignored but crash too). -/
theorem C6_free_block_crashes (s : FileSystem) (i : Int) :
    FATManager.free_block s i =
      if i = -1 then .ok s
      else if i < 2 ∨ (FATManager.total_entries : Int) ≤ i then .ok s
      else .error .typeError := by
  unfold FATManager.free_block
  by_cases h1 : i = -1
  · rw [if_pos h1, if_pos h1]
  · rw [if_neg h1, if_neg h1]
    by_cases h2 : i < 2 ∨ (FATManager.total_entries : Int) ≤ i
    · rw [if_pos h2, if_pos h2]
    · rw [if_neg h2, if_neg h2]
      apply write_entry_crash
      rw [total_entries_eq] at h2 ⊢
      omega

/-! ## C7 — deleting directories -/

/-- C7: `delete_file` can never delete (or refuse to delete) a directory:
on a filesystem with a non-empty directory `/d`, and equally on one where
`/d` is empty, `delete_file("/d")` raises `TypeError` inside
`resolve_path` before the emptiness check is ever reached; no data block
is freed either way. -/
theorem C7_delete_directory_crashes :
    errOf (FileSystem.delete_file sC8 strSlashD) = some .typeError ∧
    errOf (FileSystem.delete_file sC7e strSlashD) = some .typeError :=
  ⟨rfl, rfl⟩

/-! ## C8 — listing a missing child -/

/-- C8: `list_files` of a missing child never fails with `NotFound`: the
underlying `list_directory("/d/x")` raises `TypeError` at the first
root-directory read of `resolve_path`, and the facade's bare `except`
swallows it, so `list_files` returns the normal-looking empty listing
`[]` with the state unchanged. -/
theorem C8_list_missing_child :
    errOf (DirectoryManager.list_directory sC8 strDX) = some .typeError ∧
    FileSystem.list_files sC8 strDX = ([], sC8) :=
  ⟨rfl, rfl⟩

/-! ## C9 — name validation -/

/-- C9: name validation is dead code and unreachable anyway:
`Validator.validate_name` would reject the reserved name `CON`, but no
code path calls it — and `create_file("/CON", b"")` raises `TypeError`
inside `resolve_path` (as does `FileSystem.__init__` itself, whose
`mark_system_blocks` crashes at its first `_write_entry`), so no
`InvalidName` failure can ever be produced. -/
theorem C9_validate_name_dead :
    Validator.validate_name strCON = false ∧
    errOf FileSystem.initFs = some .typeError ∧
    errOf (FileSystem.create_file sC1 strSlashCON []) = some .typeError :=
  ⟨rfl, rfl, rfl⟩

/-! ## C10 — `write_file` on unresolved paths -/

/-- C10 counterexample: `"/m"` does not resolve to any FCB on `fsA`, and
`"/nope/f"` has a missing intermediate directory, yet `write_file`
returns `False` for neither: both raise `TypeError` inside
`resolve_path`, refuting the claimed `False`-and-unchanged behaviour. -/
theorem C10_write_file_cex :
    FileSystem.write_file fsA strSlashM [1] = .error .typeError ∧
    FileSystem.write_file fsA strNopeF [1] = .error .typeError :=
  ⟨rfl, rfl⟩

/-- C10 (amended): `write_file` never creates a file — for a path with no
components (`""`, `"/"`, `"//"`, …) it returns `False` with the state
exactly unchanged, and for every other path it raises `TypeError` at the
first buffer access of `resolve_path`. -/
theorem C10_write_file_no_create :
    (∀ (s : FileSystem) (content : Bytes) (path : Str),
        DirectoryManager.splitPath path = [] →
        FileSystem.write_file s path content = .ok (false, s)) ∧
    (∀ (s : FileSystem) (content : Bytes) (path : Str),
        DirectoryManager.splitPath path ≠ [] →
        FileSystem.write_file s path content = .error .typeError) := by
  constructor
  · intro s content path h
    unfold FileSystem.write_file
    rw [resolve_path_empty s path h]
    rfl
  · intro s content path h
    unfold FileSystem.write_file
    rw [resolve_path_crash s path h]
    rfl

theorem C10_write_file_no_create_witness :
    FileSystem.write_file fsA [47] [1] = .ok (false, fsA) ∧
    FileSystem.write_file fsA strSlashM [1] = .error .typeError :=
  ⟨C10_write_file_no_create.1 fsA [1] [47] (by decide),
   C10_write_file_no_create.2 fsA [1] strSlashM (by decide)⟩

end OsFs
